import Mathlib

/-!
The resource filter of aztfmove, `state/filter.go`.

A shallow embedding of `state/filter.go`: the four classification tables, the
summary views `MovableOnAzure` and `ToCorrectInTFState`, and
`TerraformState.Filter`, followed by theorems about them.

Go strings are Lean `String`s, read as their list of characters. The functions
of Go's `strings` package that the file calls are given by their documented
behaviour on that list. A Go slice is a `List`, `append` adds at the end.
-/

set_option autoImplicit false

namespace Aztfmove

/-! ## The functions of Go's `strings` and `fmt` packages used by the file -/

/-- `strings.HasPrefix(s, pfx)`: `s` begins with `pfx`. -/
def strings.HasPrefix (s pfx : String) : Bool :=
  pfx.data.isPrefixOf s.data

/-- Scan of `strings.Contains`: some suffix of the text begins with `substr`. -/
def strings.containsAt (substr : List Char) : List Char → Bool
  | [] => substr.isPrefixOf []
  | c :: cs => substr.isPrefixOf (c :: cs) || strings.containsAt substr cs

/-- `strings.Contains(s, substr)`: `substr` occurs somewhere within `s`. -/
def strings.Contains (s substr : String) : Bool :=
  strings.containsAt substr.data s.data

/-- Scan of `strings.Replace` with count 1: the leftmost occurrence of `old`
is replaced by `new`, the text is returned as it is when `old` does not occur. -/
def strings.replaceFirst (old new : List Char) : List Char → List Char
  | [] => if old.isPrefixOf [] then new else []
  | c :: cs =>
    if old.isPrefixOf (c :: cs) then new ++ (c :: cs).drop old.length
    else c :: strings.replaceFirst old new cs

/-- `strings.Replace(s, old, new, 1)`: a copy of `s` with the first occurrence
of `old` replaced by `new`. -/
def strings.Replace1 (s old new : String) : String :=
  ⟨strings.replaceFirst old.data new.data s.data⟩

/-- Scan of `strings.Split` for a one-character separator; `cur` holds the
characters of the piece being read, last one first. -/
def strings.splitAt (sep : Char) : List Char → List Char → List String
  | cur, [] => [⟨cur.reverse⟩]
  | cur, c :: cs =>
    if c = sep then ⟨cur.reverse⟩ :: strings.splitAt sep [] cs
    else strings.splitAt sep (c :: cur) cs

/-- `strings.Split(s, sep)` for a separator `sep` of one character: the pieces
of `s` between the separators, one more than there are separators. -/
def strings.Split (s : String) (sep : Char) : List String :=
  strings.splitAt sep [] s.data

/-- `fmt.Sprintf("/subscriptions/%s/resourceGroups/%s", subscription, group)`. -/
def resourceGroupIdOf (subscription group : String) : String :=
  "/subscriptions/" ++ subscription ++ "/resourceGroups/" ++ group

/-! ## Summaries and the classification tables -/

/-- `ResourceInstanceSummary`; the field `Type` is written `Type_`. -/
structure ResourceInstanceSummary where
  AzureID : String
  TerraformID : String
  FutureAzureID : String
  Type_ : String
  deriving DecidableEq, Repr

/-- `ResourcesInstanceSummary`, a slice of summaries. -/
abbrev ResourcesInstanceSummary := List ResourceInstanceSummary

/-- `contains(s, str)`: linear search of `str` in the slice `s`. -/
def contains : List String → String → Bool
  | [], _ => false
  | v :: rest, str => if v = str then true else contains rest str

def resourcesOnlyMovedInTF : List String :=
  [ "azurerm_app_service_slot",
    "azurerm_app_service_slot_virtual_network_swift_connection",
    "azurerm_key_vault_access_policy",
    "azurerm_key_vault_secret",
    "azurerm_mssql_database",
    "azurerm_mssql_database_extended_auditing_policy",
    "azurerm_mysql_firewall_rule",
    "azurerm_sql_firewall_rule",
    "azurerm_storage_container",
    "azurerm_storage_share",
    "azurerm_subnet",
    "azurerm_subnet_network_security_group_association" ]

def resourcesBlockingMovement : List String :=
  [ "azurerm_app_service_virtual_network_swift_connection",
    "azurerm_app_service_slot_virtual_network_swift_connection" ]

def resourcesNotSupportedInAzure : List String :=
  [ "azurerm_client_config",
    "azurerm_kubernetes_cluster",
    "azurerm_monitor_diagnostic_setting",
    "azurerm_monitor_metric_alert",
    "azurerm_resource_group" ]

def resourcesNotNeedingMovement : List String :=
  [ "azurerm_storage_share_file",
    "azurerm_storage_blob" ]

/-! ## Summary views -/

/-- Body of the loop of `MovableOnAzure`: `IDs` is the slice built so far. -/
def MovableOnAzure.body (IDs : List String) (r : ResourceInstanceSummary) : List String :=
  if contains resourcesNotSupportedInAzure r.Type_ = false
      ∧ contains resourcesOnlyMovedInTF r.Type_ = false
      ∧ contains resourcesBlockingMovement r.Type_ = false
      ∧ contains resourcesNotNeedingMovement r.Type_ = false then
    if contains IDs r.AzureID = false ∧ strings.HasPrefix r.AzureID "https://" = false then
      IDs ++ [r.AzureID]
    else IDs
  else IDs

/-- `ris.MovableOnAzure()`. -/
def MovableOnAzure (ris : ResourcesInstanceSummary) : List String :=
  ris.foldl MovableOnAzure.body []

/-- A Go `map[string]string`, kept as a list of entries with distinct keys. -/
abbrev GoMap := List (String × String)

/-- The assignment `m[k] = v`: the entry of `k` is overwritten, or added. -/
def GoMap.set : GoMap → String → String → GoMap
  | [], k, v => [(k, v)]
  | (k', v') :: rest, k, v =>
    if k' = k then (k, v) :: rest else (k', v') :: GoMap.set rest k v

/-- The keys of a map. -/
def GoMap.keys (m : GoMap) : List String :=
  m.map Prod.fst

/-- The lookup `m[k]`, `none` when `k` is not a key. -/
def GoMap.get? : GoMap → String → Option String
  | [], _ => none
  | (k', v') :: rest, k => if k' = k then some v' else GoMap.get? rest k

/-- Body of the loop of `ToCorrectInTFState`. -/
def ToCorrectInTFState.body (IDs : GoMap) (r : ResourceInstanceSummary) : GoMap :=
  if contains resourcesNotSupportedInAzure r.Type_ = false
      ∧ contains resourcesBlockingMovement r.Type_ = false
      ∧ contains resourcesNotNeedingMovement r.Type_ = false then
    IDs.set r.TerraformID r.FutureAzureID
  else IDs

/-- `ris.ToCorrectInTFState()`. -/
def ToCorrectInTFState (ris : ResourcesInstanceSummary) : GoMap :=
  ris.foldl ToCorrectInTFState.body []

/-! ## The state snapshot -/

/-- Modelled from the spec: the type `Attributes` is declared outside
`filter.go`; it is the attribute bag of an instance, of which `Filter` reads
the provider-assigned identifier `id`. -/
structure Attributes where
  ID : String
  deriving DecidableEq, Repr

/-- Modelled from the spec: the type `Instance` is declared outside
`filter.go`; an instance is `{ index, attributes: { id, ... } }`. -/
structure Instance where
  Index : String
  Attributes : Attributes
  deriving DecidableEq, Repr

/-- Modelled from the spec: the type `Resource` is declared outside
`filter.go`; a resource has a provider qualifier, a mode, a module path (empty
for the root module), a type, the name it is declared under and its instances.
The field `Type` is written `Type_`. -/
structure Resource where
  Module : String
  Mode : String
  Type_ : String
  Name : String
  Provider : String
  Instances : List Instance
  deriving DecidableEq, Repr

/-- Modelled from the spec: the type `TerraformState` is declared outside
`filter.go`; the snapshot is an ordered sequence of resources. -/
structure TerraformState where
  Resources : List Resource
  deriving DecidableEq, Repr

/-- The methods of `Resource` and `Instance` that `Filter` calls and that are
declared outside `filter.go`. `Filter` takes them as a parameter: `ResourceID r`
is `r.ID()`, `InstanceID i r` is `i.ID(r)`, `SubscriptionID i` is
`i.SubscriptionID()` and `ResourceGroup i` is `i.ResourceGroup()`. -/
structure Methods where
  ResourceID : Resource → String
  InstanceID : Instance → Resource → String
  SubscriptionID : Instance → String
  ResourceGroup : Instance → String

/-! ## `TerraformState.Filter` -/

/-- The three results of `Filter`. An `err` of `none` is Go's `nil` error. -/
structure FilterResult where
  resourceInstances : ResourcesInstanceSummary
  sourceResourceGroup : String
  err : Option String
  deriving DecidableEq, Repr

/-- The variables that the loops of `Filter` update. -/
structure LoopState where
  resourceInstances : ResourcesInstanceSummary
  resourceGroup : String
  deriving DecidableEq, Repr

/-- How one iteration of a loop body ends. -/
inductive Flow where
  /-- The iteration ends, also by `continue`; the loop goes on. -/
  | next (st : LoopState)
  /-- A `return` statement. -/
  | ret (res : FilterResult)
  /-- A run-time panic (index out of range). -/
  | panic
  deriving DecidableEq, Repr

/-- A `for _, x := range xs` loop whose body may return or panic. -/
def forRange {α : Type} (body : LoopState → α → Flow) : List α → LoopState → Flow
  | [], st => Flow.next st
  | x :: xs, st =>
    match body st x with
    | Flow.next st' => forRange body xs st'
    | Flow.ret res => Flow.ret res
    | Flow.panic => Flow.panic

/-- The provider qualifier looked for in `r.Provider`. -/
def azurermProvider : String :=
  "provider[\"registry.terraform.io/hashicorp/azurerm\"]"

/-- The type is in neither `resourcesNotSupportedInAzure` nor
`resourcesBlockingMovement`. -/
def movementEligible (type_ : String) : Prop :=
  contains resourcesNotSupportedInAzure type_ = false
    ∧ contains resourcesBlockingMovement type_ = false

instance (type_ : String) : Decidable (movementEligible type_) := by
  unfold movementEligible; infer_instance

/-- Lines 178 to 181: the identifier after the move. -/
def futureAzureId (ID resourceGroupId targetResourceGroupId : String) : String :=
  if strings.HasPrefix ID resourceGroupId = true then
    strings.Replace1 ID resourceGroupId targetResourceGroupId
  else ID

/-- Body of the loop over the instances of a resource of a type in
`resourcesNotNeedingMovement` (lines 125 to 133). -/
def passThrough (m : Methods) (r : Resource)
    (resourceInstances : ResourcesInstanceSummary) (inst : Instance) :
    ResourcesInstanceSummary :=
  resourceInstances ++
    [{ AzureID := inst.Attributes.ID
       FutureAzureID := inst.Attributes.ID
       TerraformID := m.InstanceID inst r
       Type_ := r.Type_ }]

/-- Lines 169 to 189 of the loop over the instances, run with the value
`resourceGroup` that the resolution of the source group (lines 161 to 167)
leaves in the variable of that name. -/
def instanceTail (m : Methods)
    (sourceSubscriptionID targetResourceGroup targetSubscriptionID : String)
    (r : Resource) (resourceInstances : ResourcesInstanceSummary) (resourceGroup : String)
    (inst : Instance) : Flow :=
  if m.SubscriptionID inst = targetSubscriptionID
      ∧ m.ResourceGroup inst = targetResourceGroup ∧ movementEligible r.Type_ then
    Flow.ret ⟨[], "", some ("the selected resource " ++ m.InstanceID inst r
      ++ " is already in the target resource group")⟩
  else
    Flow.next
      { resourceInstances := resourceInstances ++
          [{ AzureID := inst.Attributes.ID
             FutureAzureID := futureAzureId inst.Attributes.ID
               (resourceGroupIdOf sourceSubscriptionID resourceGroup)
               (resourceGroupIdOf targetSubscriptionID targetResourceGroup)
             TerraformID := m.InstanceID inst r
             Type_ := r.Type_ }]
        resourceGroup := resourceGroup }

/-- Body of the loop over the instances of a resource whose type is not in
`resourcesNotNeedingMovement` (lines 137 to 190). -/
def instanceBody (m : Methods)
    (resourceGroupFilter sourceSubscriptionID targetResourceGroup targetSubscriptionID : String)
    (r : Resource) (st : LoopState) (inst : Instance) : Flow :=
  if m.SubscriptionID inst = "" then
    Flow.ret ⟨[], "", some ("subscription ID is not found for " ++ m.InstanceID inst r
      ++ ". Please file a PR on https://github.com/aristosvo/aztfmove and mention this ID: "
      ++ m.InstanceID inst r)⟩
  else if m.SubscriptionID inst ≠ sourceSubscriptionID then
    match (strings.Split inst.Attributes.ID '/').get? 2 with
    | none => Flow.panic
    | some segment =>
      Flow.ret ⟨[], "", some ("resource instance `" ++ m.InstanceID inst r
        ++ "` has a different subscription specified, unable to start moving. Resource instance subscription ID: "
        ++ segment ++ ", specified subscription ID: " ++ sourceSubscriptionID)⟩
  else if m.ResourceGroup inst = "" ∧ movementEligible r.Type_ then
    Flow.ret ⟨[], "", some ("resource group is not found for " ++ m.InstanceID inst r
      ++ ". Please file a PR on https://github.com/aristosvo/aztfmove and mention this ID: "
      ++ m.InstanceID inst r)⟩
  else if resourceGroupFilter ≠ "*" ∧ m.ResourceGroup inst ≠ resourceGroupFilter then
    Flow.next st
  else if st.resourceGroup = "*" ∧ movementEligible r.Type_ then
    instanceTail m sourceSubscriptionID targetResourceGroup targetSubscriptionID r
      st.resourceInstances (m.ResourceGroup inst) inst
  else if st.resourceGroup ≠ m.ResourceGroup inst ∧ movementEligible r.Type_ then
    Flow.ret ⟨[], "", some ("multiple resource groups found within your selection, unable to start moving. Resource groups found: ["
      ++ st.resourceGroup ++ ", " ++ m.ResourceGroup inst ++ "]")⟩
  else
    instanceTail m sourceSubscriptionID targetResourceGroup targetSubscriptionID r
      st.resourceInstances st.resourceGroup inst

/-- The resource passes the three selections of lines 109 to 121: azurerm
provider and mode `managed`, the resource filter, the module filter. -/
def selected (m : Methods) (resourceFilter moduleFilter : String) (r : Resource) : Prop :=
  (strings.Contains r.Provider azurermProvider = true ∧ r.Mode = "managed")
    ∧ (resourceFilter = "" ∨ resourceFilter = "*" ∨ m.ResourceID r = resourceFilter)
    ∧ (moduleFilter = "" ∨ moduleFilter = "*" ∨ r.Module = moduleFilter)

instance (m : Methods) (resourceFilter moduleFilter : String) (r : Resource) :
    Decidable (selected m resourceFilter moduleFilter r) := by
  unfold selected; infer_instance

/-- Body of the loop over the resources (lines 108 to 191). -/
def resourceBody (m : Methods)
    (resourceFilter moduleFilter resourceGroupFilter sourceSubscriptionID targetResourceGroup
      targetSubscriptionID : String)
    (st : LoopState) (r : Resource) : Flow :=
  if strings.Contains r.Provider azurermProvider = false ∨ r.Mode ≠ "managed" then
    Flow.next st
  else if (resourceFilter ≠ "" ∧ resourceFilter ≠ "*") ∧ m.ResourceID r ≠ resourceFilter then
    Flow.next st
  else if (moduleFilter ≠ "" ∧ moduleFilter ≠ "*") ∧ r.Module ≠ moduleFilter then
    Flow.next st
  else if contains resourcesNotNeedingMovement r.Type_ = true then
    Flow.next
      { resourceInstances := r.Instances.foldl (passThrough m r) st.resourceInstances
        resourceGroup := st.resourceGroup }
  else
    forRange
      (instanceBody m resourceGroupFilter sourceSubscriptionID targetResourceGroup
        targetSubscriptionID r)
      r.Instances st

/-- `tfstate.Filter(resourceFilter, moduleFilter, resourceGroupFilter,
sourceSubscriptionID, targetResourceGroup, targetSubscriptionID)`. The value is
`some` of the three results when the call returns and `none` when it panics. -/
def Filter (m : Methods) (tfstate : TerraformState)
    (resourceFilter moduleFilter resourceGroupFilter sourceSubscriptionID targetResourceGroup
      targetSubscriptionID : String) : Option FilterResult :=
  match forRange
      (resourceBody m resourceFilter moduleFilter resourceGroupFilter sourceSubscriptionID
        targetResourceGroup targetSubscriptionID)
      tfstate.Resources { resourceInstances := [], resourceGroup := resourceGroupFilter } with
  | Flow.next st => some ⟨st.resourceInstances, st.resourceGroup, none⟩
  | Flow.ret res => some res
  | Flow.panic => none

/-! ## The absent methods, as the spec describes them

Used for the concrete inputs only; the theorems hold for every `Methods`. -/

/-- Modelled from the spec: `Resource.ID()` is declared outside `filter.go`;
the handle of a resource is made of its module path, type and name. -/
def specResourceID (r : Resource) : String :=
  if r.Module = "" then r.Type_ ++ "." ++ r.Name
  else r.Module ++ "." ++ r.Type_ ++ "." ++ r.Name

/-- Modelled from the spec: `Instance.ID(r)` is declared outside `filter.go`;
the local handle combines the handle of the owning resource with the index of
the instance. -/
def specInstanceID (inst : Instance) (r : Resource) : String :=
  if inst.Index = "" then specResourceID r
  else specResourceID r ++ "[" ++ inst.Index ++ "]"

/-- Modelled from the spec: `Instance.SubscriptionID()` is declared outside
`filter.go`; it is a path segment of the identifier, here the one that follows
`/subscriptions/`, and empty when the identifier has none. -/
def specSubscriptionID (inst : Instance) : String :=
  match strings.Split inst.Attributes.ID '/' with
  | "" :: "subscriptions" :: sub :: _ => sub
  | _ => ""

/-- Modelled from the spec: `Instance.ResourceGroup()` is declared outside
`filter.go`; it is another path segment of the identifier, here the one that
follows `/resourceGroups/`, and empty when the identifier is not an ARM-style
path. -/
def specResourceGroup (inst : Instance) : String :=
  match strings.Split inst.Attributes.ID '/' with
  | "" :: "subscriptions" :: _ :: "resourceGroups" :: group :: _ => group
  | _ => ""

/-- The four methods as the spec describes them. -/
def specMethods : Methods :=
  { ResourceID := specResourceID
    InstanceID := specInstanceID
    SubscriptionID := specSubscriptionID
    ResourceGroup := specResourceGroup }

/-- A managed azurerm resource of the root module with one instance. -/
def mkResource (type_ name id : String) : Resource :=
  { Module := ""
    Mode := "managed"
    Type_ := type_
    Name := name
    Provider := "provider[\"registry.terraform.io/hashicorp/azurerm\"]"
    Instances := [{ Index := "", Attributes := { ID := id } }] }

/-! ## Predicates used in the statements -/

/-- The summary is one that `ToCorrectInTFState` records. -/
def toCorrect (r : ResourceInstanceSummary) : Prop :=
  contains resourcesNotSupportedInAzure r.Type_ = false
    ∧ contains resourcesBlockingMovement r.Type_ = false
    ∧ contains resourcesNotNeedingMovement r.Type_ = false

/-- The summary is one that `MovableOnAzure` reports. -/
def movable (r : ResourceInstanceSummary) : Prop :=
  (contains resourcesNotSupportedInAzure r.Type_ = false
    ∧ contains resourcesOnlyMovedInTF r.Type_ = false
    ∧ contains resourcesBlockingMovement r.Type_ = false
    ∧ contains resourcesNotNeedingMovement r.Type_ = false)
    ∧ strings.HasPrefix r.AzureID "https://" = false

/-- The summary that `Filter` emits for the instance `inst` of the resource `r`
when the identifier after the move is `future`. -/
def summaryOf (m : Methods) (r : Resource) (inst : Instance) (future : String) :
    ResourceInstanceSummary :=
  { AzureID := inst.Attributes.ID
    FutureAzureID := future
    TerraformID := m.InstanceID inst r
    Type_ := r.Type_ }

/-- The property of the loop state that the rewrite of the identifiers keeps:
the running group is not the wildcard unless the filter is, and every summary so far that is not a
pass-through (and is of a movement-eligible type when the filter is the
wildcard) was rewritten with the running group, which is resolved. -/
def rewrittenWith (rgf src trg tsub : String) (st : LoopState) : Prop :=
  (rgf ≠ "*" → st.resourceGroup ≠ "*")
    ∧ ∀ s ∈ st.resourceInstances,
        contains resourcesNotNeedingMovement s.Type_ = false →
        (rgf = "*" → movementEligible s.Type_) →
          st.resourceGroup ≠ "*"
            ∧ s.FutureAzureID = futureAzureId s.AzureID
                (resourceGroupIdOf src st.resourceGroup) (resourceGroupIdOf tsub trg)

/-! ## Concrete inputs -/

/-- A summary of a type that is in `resourcesOnlyMovedInTF` and also in
`resourcesBlockingMovement`. -/
def swiftSlotSummary : ResourceInstanceSummary :=
  { AzureID := "/subscriptions/S1/resourceGroups/input-rg/providers/Microsoft.Web/sites/app/slots/stage/config/virtualNetwork"
    TerraformID := "azurerm_app_service_slot_virtual_network_swift_connection.conn"
    FutureAzureID := "/subscriptions/S1/resourceGroups/output-rg/providers/Microsoft.Web/sites/app/slots/stage/config/virtualNetwork"
    Type_ := "azurerm_app_service_slot_virtual_network_swift_connection" }

/-- A summary of the type `azurerm_subnet`, which is in `resourcesOnlyMovedInTF`
only (scenario E). -/
def subnetSummary : ResourceInstanceSummary :=
  { AzureID := "/subscriptions/S1/resourceGroups/input-rg/providers/Microsoft.Network/virtualNetworks/vnet/subnets/sn"
    TerraformID := "azurerm_subnet.sn"
    FutureAzureID := "/subscriptions/S1/resourceGroups/output-rg/providers/Microsoft.Network/virtualNetworks/vnet/subnets/sn"
    Type_ := "azurerm_subnet" }

/-- The identifier of the virtual machine `vm1` of scenario A. -/
def vm1ID : String :=
  "/subscriptions/S1/resourceGroups/input-rg/providers/Microsoft.Compute/virtualMachines/vm1"

/-- The resource of scenario A: one virtual machine in `input-rg`. -/
def vm1 : Resource :=
  mkResource "azurerm_virtual_machine" "vm1" vm1ID

/-- Scenario A: one instance of type `azurerm_virtual_machine` in `input-rg`. -/
def scenarioA : TerraformState :=
  { Resources := [vm1] }

/-- The summary of scenario A. -/
def vm1Summary : ResourceInstanceSummary :=
  { AzureID := vm1ID
    TerraformID := "azurerm_virtual_machine.vm1"
    FutureAzureID :=
      "/subscriptions/S1/resourceGroups/output-rg/providers/Microsoft.Compute/virtualMachines/vm1"
    Type_ := "azurerm_virtual_machine" }

/-- A Kubernetes cluster in `input-rg`; its type is in
`resourcesNotSupportedInAzure`. -/
def aks : Resource :=
  mkResource "azurerm_kubernetes_cluster" "aks"
    "/subscriptions/S1/resourceGroups/input-rg/providers/Microsoft.ContainerService/managedClusters/aks"

/-- The summary that `Filter` emits for `aks` while the source group is not
resolved. -/
def aksSummary : ResourceInstanceSummary :=
  { AzureID :=
      "/subscriptions/S1/resourceGroups/input-rg/providers/Microsoft.ContainerService/managedClusters/aks"
    TerraformID := "azurerm_kubernetes_cluster.aks"
    FutureAzureID :=
      "/subscriptions/S1/resourceGroups/input-rg/providers/Microsoft.ContainerService/managedClusters/aks"
    Type_ := "azurerm_kubernetes_cluster" }

/-- A cluster and then a virtual machine, both in `input-rg`. -/
def clusterThenMachine : TerraformState :=
  { Resources := [aks, vm1] }

/-- A virtual machine whose identifier names the resource group `*`. -/
def vm0 : Resource :=
  mkResource "azurerm_virtual_machine" "vm0"
    "/subscriptions/S1/resourceGroups/*/providers/Microsoft.Compute/virtualMachines/vm0"

/-- The instance of `vm0`. -/
def vm0Instance : Instance :=
  { Index := ""
    Attributes :=
      { ID := "/subscriptions/S1/resourceGroups/*/providers/Microsoft.Compute/virtualMachines/vm0" } }

/-- The summary that `Filter` emits for `vm0`. -/
def vm0Summary : ResourceInstanceSummary :=
  { AzureID := "/subscriptions/S1/resourceGroups/*/providers/Microsoft.Compute/virtualMachines/vm0"
    TerraformID := "azurerm_virtual_machine.vm0"
    FutureAzureID :=
      "/subscriptions/S1/resourceGroups/output-rg/providers/Microsoft.Compute/virtualMachines/vm0"
    Type_ := "azurerm_virtual_machine" }

/-- A machine in the group `*` and then a machine in `input-rg`. -/
def wildcardGroupThenMachine : TerraformState :=
  { Resources := [vm0, vm1] }

/-- A virtual machine in `other-rg`. -/
def vm2 : Resource :=
  mkResource "azurerm_virtual_machine" "vm2"
    "/subscriptions/S1/resourceGroups/other-rg/providers/Microsoft.Compute/virtualMachines/vm2"

/-- Scenario C: two instances, in `input-rg` and in `other-rg`. -/
def scenarioC : TerraformState :=
  { Resources := [vm1, vm2] }

/-- The result of `Filter` on scenario C. -/
def scenarioCResult : FilterResult :=
  { resourceInstances := []
    sourceResourceGroup := ""
    err := some "multiple resource groups found within your selection, unable to start moving. Resource groups found: [input-rg, other-rg]" }

/-- A virtual machine that is in `output-rg` already. -/
def vm3 : Resource :=
  mkResource "azurerm_virtual_machine" "vm3"
    "/subscriptions/S1/resourceGroups/output-rg/providers/Microsoft.Compute/virtualMachines/vm3"

/-- The instance of `vm3`. -/
def vm3Instance : Instance :=
  { Index := ""
    Attributes :=
      { ID := "/subscriptions/S1/resourceGroups/output-rg/providers/Microsoft.Compute/virtualMachines/vm3" } }

/-- Scenario F: a machine in `input-rg`, then one located in the target group. -/
def scenarioF : TerraformState :=
  { Resources := [vm1, vm3] }

/-- A storage blob, of a type in `resourcesNotNeedingMovement`, with a
URL-shaped identifier. -/
def blob : Resource :=
  mkResource "azurerm_storage_blob" "blob" "https://account.blob.core.windows.net/container/blob"

/-- Scenario D: one instance of type `azurerm_storage_blob`. -/
def scenarioD : TerraformState :=
  { Resources := [blob] }

/-! ## Predicates on resources used in the statements -/

/-- The test of line 109, as a Boolean: the provider qualifier is that of
azurerm and the mode is `managed`. -/
def isManagedAzurerm (r : Resource) : Bool :=
  strings.Contains r.Provider azurermProvider && decide (r.Mode = "managed")

/-- The handle of the resource is `resourceFilter`. -/
def hasResourceID (m : Methods) (resourceFilter : String) (r : Resource) : Bool :=
  decide (m.ResourceID r = resourceFilter)

/-- The module path of the resource is `moduleFilter`. -/
def inModule (moduleFilter : String) (r : Resource) : Bool :=
  decide (r.Module = moduleFilter)

/-! ## The errors of `Filter` -/

/-- The message of line 165, which names the running group and the group of the
instance: `fmt.Errorf("multiple resource groups found ... [%s, %s]", ...)`. -/
def conflictMessage (resourceGroup instanceResourceGroup : String) : String :=
  "multiple resource groups found within your selection, unable to start moving. Resource groups found: ["
    ++ resourceGroup ++ ", " ++ instanceResourceGroup ++ "]"

/-- The instance `inst` of the resource `r` is the cause of the error `msg`:
one of the five failing checks of the loop body holds of it. For the first four
(no subscription, another subscription, no resource group, already in the
target group) the message contains the local handle `inst.ID(r)`; for the fifth
(another resource group than the running one) the message is that of line
165. -/
def offence (m : Methods) (sourceSubscriptionID targetResourceGroup targetSubscriptionID : String)
    (r : Resource) (inst : Instance) (msg : String) : Prop :=
  (m.SubscriptionID inst = "" ∧ strings.Contains msg (m.InstanceID inst r) = true)
    ∨ (m.SubscriptionID inst ≠ "" ∧ m.SubscriptionID inst ≠ sourceSubscriptionID
        ∧ strings.Contains msg (m.InstanceID inst r) = true)
    ∨ (m.ResourceGroup inst = "" ∧ movementEligible r.Type_
        ∧ strings.Contains msg (m.InstanceID inst r) = true)
    ∨ (m.SubscriptionID inst = targetSubscriptionID
        ∧ m.ResourceGroup inst = targetResourceGroup ∧ movementEligible r.Type_
        ∧ strings.Contains msg (m.InstanceID inst r) = true)
    ∨ (movementEligible r.Type_
        ∧ ∃ resourceGroup : String, resourceGroup ≠ m.ResourceGroup inst
            ∧ msg = conflictMessage resourceGroup (m.ResourceGroup inst))

/-- A machine with a subscription-level identifier, which names no resource
group. -/
def vm4 : Resource :=
  mkResource "azurerm_virtual_machine" "vm4"
    "/subscriptions/S1/providers/Microsoft.Compute/virtualMachines/vm4"

/-- The instance of `vm4`. -/
def vm4Instance : Instance :=
  { Index := ""
    Attributes := { ID := "/subscriptions/S1/providers/Microsoft.Compute/virtualMachines/vm4" } }

/-- A machine in `input-rg`, then a machine without a resource group. -/
def machineWithoutGroup : TerraformState :=
  { Resources := [vm1, vm4] }

/-- A diagnostic setting of the subscription: a type of
`resourcesNotSupportedInAzure` whose identifier names no resource group. -/
def diag : Resource :=
  mkResource "azurerm_monitor_diagnostic_setting" "diag"
    "/subscriptions/S1/providers/Microsoft.Insights/diagnosticSettings/diag"

/-- A snapshot with the diagnostic setting only. -/
def settingWithoutGroup : TerraformState :=
  { Resources := [diag] }

/-- Scenario F with one machine only, the one located in the target group. -/
def machineInTarget : TerraformState :=
  { Resources := [vm3] }

/-! ## The instances that get a summary -/

/-- The instance passes the resource-group filter of line 156. -/
def passesGroupFilter (m : Methods) (resourceGroupFilter : String) (inst : Instance) : Bool :=
  decide (resourceGroupFilter = "*" ∨ m.ResourceGroup inst = resourceGroupFilter)

/-- The instances of the resource `r` that get a summary in a call that
succeeds: all of them for a type of `resourcesNotNeedingMovement`, else those
that pass the resource-group filter. -/
def emittedInstances (m : Methods) (resourceGroupFilter : String) (r : Resource) :
    List Instance :=
  if contains resourcesNotNeedingMovement r.Type_ = true then r.Instances
  else r.Instances.filter (passesGroupFilter m resourceGroupFilter)

/-- The instances of the selected resources, each with its resource, flattened
resource by resource and instance by instance. -/
def selectedInstances (m : Methods) (resourceFilter moduleFilter : String) :
    List Resource → List (Resource × Instance)
  | [] => []
  | r :: rs =>
    (if selected m resourceFilter moduleFilter r then r.Instances.map (fun inst => (r, inst))
      else [])
      ++ selectedInstances m resourceFilter moduleFilter rs

/-- The instances that get a summary in a call that succeeds, each with its
resource, in the order of the snapshot. -/
def emitted (m : Methods) (resourceFilter moduleFilter resourceGroupFilter : String) :
    List Resource → List (Resource × Instance)
  | [] => []
  | r :: rs =>
    (if selected m resourceFilter moduleFilter r then
        (emittedInstances m resourceGroupFilter r).map (fun inst => (r, inst))
      else [])
      ++ emitted m resourceFilter moduleFilter resourceGroupFilter rs

/-- The summary `s` is that of the instance `p.2` of the resource `p.1`: its
`AzureID` is the `id` attribute of the instance, its `TerraformID` is
`inst.ID(r)` and its type is that of the resource. -/
def summarises (m : Methods) (s : ResourceInstanceSummary) (p : Resource × Instance) : Prop :=
  s.AzureID = p.2.Attributes.ID ∧ s.TerraformID = m.InstanceID p.2 p.1 ∧ s.Type_ = p.1.Type_

/-- The property of the loop state behind the unresolved source group: either a
summary of a movement-eligible type outside `resourcesNotNeedingMovement` was
emitted, or the running group is still the resource-group filter and every
summary that is not a pass-through was rewritten with that filter as the
group. -/
def unresolvedOrEligible (rgf src trg tsub : String) (st : LoopState) : Prop :=
  (∃ s ∈ st.resourceInstances,
      movementEligible s.Type_ ∧ contains resourcesNotNeedingMovement s.Type_ = false)
    ∨ (st.resourceGroup = rgf
        ∧ ∀ s ∈ st.resourceInstances,
            contains resourcesNotNeedingMovement s.Type_ = false →
              s.FutureAzureID = futureAzureId s.AzureID
                (resourceGroupIdOf src rgf) (resourceGroupIdOf tsub trg))

/-- A snapshot with the cluster only. -/
def clusterOnly : TerraformState :=
  { Resources := [aks] }

/-! # Theorems -/

/-! ## Lemmas on the string functions -/

theorem HasPrefix_iff (s pfx : String) :
    strings.HasPrefix s pfx = true ↔ ∃ rest : String, s = pfx ++ rest := by
  unfold strings.HasPrefix
  rw [List.isPrefixOf_iff_prefix]
  constructor
  · rintro ⟨t, ht⟩
    exact ⟨⟨t⟩, String.ext (by simp [ht])⟩
  · rintro ⟨rest, rfl⟩
    exact ⟨rest.data, by simp⟩

theorem HasPrefix_append (pfx rest : String) : strings.HasPrefix (pfx ++ rest) pfx = true :=
  (HasPrefix_iff _ _).2 ⟨rest, rfl⟩

theorem replaceFirst_append (old new rest : List Char) :
    strings.replaceFirst old new (old ++ rest) = new ++ rest := by
  have hp : old.isPrefixOf (old ++ rest) = true := by
    rw [List.isPrefixOf_iff_prefix]; exact List.prefix_append _ _
  cases h : old ++ rest with
  | nil =>
    have h1 : old = [] := (List.append_eq_nil.1 h).1
    have h2 : rest = [] := (List.append_eq_nil.1 h).2
    subst h1; subst h2
    simp [strings.replaceFirst]
  | cons c cs =>
    rw [h] at hp
    simp only [strings.replaceFirst, hp, if_true]
    rw [← h, List.drop_left]

theorem Replace1_append (old new rest : String) :
    strings.Replace1 (old ++ rest) old new = new ++ rest := by
  apply String.ext
  simp [strings.Replace1, replaceFirst_append]

theorem futureAzureId_append (src tgt rest : String) :
    futureAzureId (src ++ rest) src tgt = tgt ++ rest := by
  simp [futureAzureId, HasPrefix_append, Replace1_append]

theorem futureAzureId_of_not_prefix (ID src tgt : String)
    (h : strings.HasPrefix ID src = false) : futureAzureId ID src tgt = ID := by
  simp [futureAzureId, h]

/-! ## Lemmas on the tables and the views -/

theorem contains_iff_mem (s : List String) (str : String) : contains s str = true ↔ str ∈ s := by
  induction s with
  | nil => simp [contains]
  | cons v rest ih =>
    by_cases h : v = str
    · simp [contains, h]
    · have h' : ¬ str = v := fun e => h e.symm
      simp [contains, h, h', ih]

theorem contains_eq_false_iff (s : List String) (str : String) :
    contains s str = false ↔ str ∉ s := by
  rw [← contains_iff_mem]; simp

theorem GoMap.mem_keys_set (m : GoMap) (k v x : String) :
    x ∈ (m.set k v).keys ↔ x = k ∨ x ∈ m.keys := by
  induction m with
  | nil => simp [GoMap.set, GoMap.keys]
  | cons e rest ih =>
    obtain ⟨k', v'⟩ := e
    by_cases h : k' = k
    · subst h
      simp [GoMap.set, GoMap.keys]
    · simp only [GoMap.keys] at ih
      simp only [GoMap.set, h, if_false, GoMap.keys, List.map_cons, List.mem_cons, ih]
      tauto

theorem mem_keys_foldl_ToCorrect (ris : ResourcesInstanceSummary) (IDs : GoMap) (x : String) :
    x ∈ (ris.foldl ToCorrectInTFState.body IDs).keys
      ↔ x ∈ IDs.keys ∨ ∃ r ∈ ris, toCorrect r ∧ r.TerraformID = x := by
  induction ris generalizing IDs with
  | nil => simp
  | cons r rest ih =>
    rw [List.foldl_cons, ih]
    by_cases h : toCorrect r
    · have hb : ToCorrectInTFState.body IDs r = IDs.set r.TerraformID r.FutureAzureID := by
        unfold toCorrect at h
        simp [ToCorrectInTFState.body, h]
      rw [hb, GoMap.mem_keys_set]
      constructor
      · rintro ((rfl | h1) | ⟨r', hr', h2⟩)
        · exact Or.inr ⟨r, List.mem_cons_self _ _, h, rfl⟩
        · exact Or.inl h1
        · exact Or.inr ⟨r', List.mem_cons_of_mem _ hr', h2⟩
      · rintro (h1 | ⟨r', hr', h2⟩)
        · exact Or.inl (Or.inr h1)
        · rcases List.mem_cons.1 hr' with rfl | hr'
          · exact Or.inl (Or.inl h2.2.symm)
          · exact Or.inr ⟨r', hr', h2⟩
    · have hb : ToCorrectInTFState.body IDs r = IDs := by
        unfold toCorrect at h
        simp only [ToCorrectInTFState.body, h, if_false]
      rw [hb]
      constructor
      · rintro (h1 | ⟨r', hr', h2⟩)
        · exact Or.inl h1
        · exact Or.inr ⟨r', List.mem_cons_of_mem _ hr', h2⟩
      · rintro (h1 | ⟨r', hr', h2⟩)
        · exact Or.inl h1
        · rcases List.mem_cons.1 hr' with rfl | hr'
          · exact absurd h2.1 h
          · exact Or.inr ⟨r', hr', h2⟩

theorem mem_MovableOnAzure_body (IDs : List String) (r : ResourceInstanceSummary) (x : String) :
    x ∈ MovableOnAzure.body IDs r ↔ x ∈ IDs ∨ (movable r ∧ r.AzureID = x) := by
  unfold MovableOnAzure.body movable
  by_cases ht : contains resourcesNotSupportedInAzure r.Type_ = false
      ∧ contains resourcesOnlyMovedInTF r.Type_ = false
      ∧ contains resourcesBlockingMovement r.Type_ = false
      ∧ contains resourcesNotNeedingMovement r.Type_ = false
  · rw [if_pos ht]
    by_cases hu : strings.HasPrefix r.AzureID "https://" = false
    · by_cases hc : contains IDs r.AzureID = false
      · rw [if_pos ⟨hc, hu⟩]
        simp only [List.mem_append, List.mem_singleton]
        constructor
        · rintro (h | h)
          · exact Or.inl h
          · exact Or.inr ⟨⟨ht, hu⟩, h.symm⟩
        · rintro (h | ⟨_, h⟩)
          · exact Or.inl h
          · exact Or.inr h.symm
      · rw [if_neg (fun h => hc h.1)]
        have hmem : r.AzureID ∈ IDs := by
          rw [← contains_iff_mem]
          cases hcc : contains IDs r.AzureID
          · exact absurd hcc hc
          · rfl
        constructor
        · exact Or.inl
        · rintro (h | ⟨_, h⟩)
          · exact h
          · exact h ▸ hmem
    · rw [if_neg (fun h => hu h.2)]
      constructor
      · exact Or.inl
      · rintro (h | ⟨⟨_, h⟩, _⟩)
        · exact h
        · exact absurd h hu
  · rw [if_neg ht]
    constructor
    · exact Or.inl
    · rintro (h | ⟨⟨h, _⟩, _⟩)
      · exact h
      · exact absurd h ht

theorem mem_foldl_MovableOnAzure (ris : ResourcesInstanceSummary) (IDs : List String)
    (x : String) :
    x ∈ ris.foldl MovableOnAzure.body IDs ↔ x ∈ IDs ∨ ∃ r ∈ ris, movable r ∧ r.AzureID = x := by
  induction ris generalizing IDs with
  | nil => simp
  | cons r rest ih =>
    rw [List.foldl_cons, ih, mem_MovableOnAzure_body]
    constructor
    · rintro ((h | h) | ⟨r', hr', h⟩)
      · exact Or.inl h
      · exact Or.inr ⟨r, List.mem_cons_self _ _, h⟩
      · exact Or.inr ⟨r', List.mem_cons_of_mem _ hr', h⟩
    · rintro (h | ⟨r', hr', h⟩)
      · exact Or.inl (Or.inl h)
      · rcases List.mem_cons.1 hr' with rfl | hr'
        · exact Or.inl (Or.inr h)
        · exact Or.inr ⟨r', hr', h⟩

theorem onlyMovedInTF_not_elsewhere (type_ : String)
    (h : contains resourcesOnlyMovedInTF type_ = true) :
    contains resourcesNotSupportedInAzure type_ = false
      ∧ contains resourcesNotNeedingMovement type_ = false := by
  rw [contains_iff_mem] at h
  simp only [resourcesOnlyMovedInTF, List.mem_cons, List.mem_singleton, List.not_mem_nil,
    or_false] at h
  obtain rfl | rfl | rfl | rfl | rfl | rfl | rfl | rfl | rfl | rfl | rfl | rfl := h <;> decide

/-! ## Lemmas on the loops of `Filter` -/

theorem forRange_next_rel {α : Type} (body : LoopState → α → Flow)
    (R : LoopState → LoopState → Prop) (hrefl : ∀ st, R st st)
    (htrans : ∀ a b c, R a b → R b c → R a c) (xs : List α)
    (hstep : ∀ x ∈ xs, ∀ st st', body st x = Flow.next st' → R st st') :
    ∀ st st', forRange body xs st = Flow.next st' → R st st' := by
  induction xs with
  | nil =>
    intro st st' h
    simp only [forRange, Flow.next.injEq] at h
    subst h
    exact hrefl _
  | cons x xs ih =>
    intro st st' h
    cases hb : body st x with
    | next st1 =>
      simp only [forRange, hb] at h
      exact htrans _ _ _ (hstep x (List.mem_cons_self _ _) _ _ hb)
        (ih (fun y hy => hstep y (List.mem_cons_of_mem _ hy)) _ _ h)
    | ret res => simp [forRange, hb] at h
    | panic => simp [forRange, hb] at h

theorem forRange_next_mem {α : Type} (body : LoopState → α → Flow)
    (R : LoopState → LoopState → Prop) (Q : α → LoopState → Prop) (hrefl : ∀ st, R st st)
    (htrans : ∀ a b c, R a b → R b c → R a c)
    (hmono : ∀ x st st', Q x st → R st st' → Q x st') (xs : List α)
    (hstep : ∀ x ∈ xs, ∀ st st', body st x = Flow.next st' → R st st' ∧ Q x st') :
    ∀ st st', forRange body xs st = Flow.next st' → ∀ x ∈ xs, Q x st' := by
  induction xs with
  | nil => intro st st' _ x hx; simp at hx
  | cons x xs ih =>
    intro st st' h y hy
    cases hb : body st x with
    | next st1 =>
      simp only [forRange, hb] at h
      rcases List.mem_cons.1 hy with rfl | hy
      · have hR : R st1 st' :=
          forRange_next_rel body R hrefl htrans xs
            (fun z hz a b hab => (hstep z (List.mem_cons_of_mem _ hz) a b hab).1) _ _ h
        exact hmono _ _ _ (hstep y (List.mem_cons_self _ _) _ _ hb).2 hR
      · exact ih (fun z hz => hstep z (List.mem_cons_of_mem _ hz)) _ _ h y hy
    | ret res => simp [forRange, hb] at h
    | panic => simp [forRange, hb] at h

theorem forRange_ret {α : Type} (body : LoopState → α → Flow) (P : FilterResult → Prop)
    (xs : List α) (hstep : ∀ x ∈ xs, ∀ st res, body st x = Flow.ret res → P res) :
    ∀ st res, forRange body xs st = Flow.ret res → P res := by
  induction xs with
  | nil => intro st res h; simp [forRange] at h
  | cons x xs ih =>
    intro st res h
    cases hb : body st x with
    | next st1 =>
      simp only [forRange, hb] at h
      exact ih (fun y hy => hstep y (List.mem_cons_of_mem _ hy)) _ _ h
    | ret res1 =>
      simp only [forRange, hb, Flow.ret.injEq] at h
      subst h
      exact hstep x (List.mem_cons_self _ _) _ _ hb
    | panic => simp [forRange, hb] at h

theorem forRange_ne_panic {α : Type} (body : LoopState → α → Flow) (xs : List α)
    (hstep : ∀ x ∈ xs, ∀ st, body st x ≠ Flow.panic) :
    ∀ st, forRange body xs st ≠ Flow.panic := by
  induction xs with
  | nil => intro st h; simp [forRange] at h
  | cons x xs ih =>
    intro st h
    cases hb : body st x with
    | next st1 =>
      simp only [forRange, hb] at h
      exact ih (fun y hy => hstep y (List.mem_cons_of_mem _ hy)) _ h
    | ret res1 => simp [forRange, hb] at h
    | panic => exact hstep x (List.mem_cons_self _ _) _ hb

theorem selected_of_not (m : Methods) (rf mf : String) (r : Resource)
    (h1 : ¬ (strings.Contains r.Provider azurermProvider = false ∨ r.Mode ≠ "managed"))
    (h2 : ¬ ((rf ≠ "" ∧ rf ≠ "*") ∧ m.ResourceID r ≠ rf))
    (h3 : ¬ ((mf ≠ "" ∧ mf ≠ "*") ∧ r.Module ≠ mf)) : selected m rf mf r := by
  unfold selected
  refine ⟨⟨?_, ?_⟩, ?_, ?_⟩
  · cases hc : strings.Contains r.Provider azurermProvider
    · exact absurd (Or.inl hc) h1
    · rfl
  · by_contra hm; exact h1 (Or.inr hm)
  · by_contra hn
    push_neg at hn
    exact h2 ⟨⟨hn.1, hn.2.1⟩, hn.2.2⟩
  · by_contra hn
    push_neg at hn
    exact h3 ⟨⟨hn.1, hn.2.1⟩, hn.2.2⟩

theorem foldl_passThrough (m : Methods) (r : Resource) (insts : List Instance)
    (acc : ResourcesInstanceSummary) :
    insts.foldl (passThrough m r) acc
      = acc ++ insts.map (fun inst => summaryOf m r inst inst.Attributes.ID) := by
  induction insts generalizing acc with
  | nil => simp
  | cons i rest ih =>
    rw [List.foldl_cons, ih]
    simp [passThrough, summaryOf]

theorem instanceTail_next (m : Methods) (src trg tsub : String) (r : Resource)
    (acc : ResourcesInstanceSummary) (g : String) (inst : Instance) (st' : LoopState)
    (h : instanceTail m src trg tsub r acc g inst = Flow.next st') :
    ¬ (m.SubscriptionID inst = tsub ∧ m.ResourceGroup inst = trg ∧ movementEligible r.Type_)
      ∧ st' = { resourceInstances := acc ++ [summaryOf m r inst
                  (futureAzureId inst.Attributes.ID (resourceGroupIdOf src g)
                    (resourceGroupIdOf tsub trg))]
                resourceGroup := g } := by
  unfold instanceTail at h
  split_ifs at h with h1
  simp only [Flow.next.injEq] at h
  exact ⟨h1, by rw [← h]; rfl⟩

/-- What an iteration of the loop over the instances that ends without a
`return` has checked and done. -/
theorem instanceBody_next (m : Methods) (rgf src trg tsub : String) (r : Resource)
    (st : LoopState) (inst : Instance) (st' : LoopState)
    (h : instanceBody m rgf src trg tsub r st inst = Flow.next st') :
    m.SubscriptionID inst ≠ "" ∧ m.SubscriptionID inst = src
      ∧ ¬ (m.ResourceGroup inst = "" ∧ movementEligible r.Type_)
      ∧ (((rgf ≠ "*" ∧ m.ResourceGroup inst ≠ rgf) ∧ st' = st)
        ∨ (¬ (rgf ≠ "*" ∧ m.ResourceGroup inst ≠ rgf)
            ∧ ¬ (m.SubscriptionID inst = tsub ∧ m.ResourceGroup inst = trg
                  ∧ movementEligible r.Type_)
            ∧ ∃ g : String,
                ((st.resourceGroup = "*" ∧ movementEligible r.Type_ ∧ g = m.ResourceGroup inst)
                  ∨ (¬ (st.resourceGroup = "*" ∧ movementEligible r.Type_)
                      ∧ ¬ (st.resourceGroup ≠ m.ResourceGroup inst ∧ movementEligible r.Type_)
                      ∧ g = st.resourceGroup))
                ∧ st' = { resourceInstances := st.resourceInstances ++ [summaryOf m r inst
                            (futureAzureId inst.Attributes.ID (resourceGroupIdOf src g)
                              (resourceGroupIdOf tsub trg))]
                          resourceGroup := g })) := by
  unfold instanceBody at h
  split_ifs at h with h1 h2 h3 h4 h5 h6
  · split at h <;> simp at h
  · simp only [Flow.next.injEq] at h
    exact ⟨h1, not_not.1 h2, h3, Or.inl ⟨h4, h.symm⟩⟩
  · obtain ⟨ht, hst⟩ := instanceTail_next _ _ _ _ _ _ _ _ _ h
    exact ⟨h1, not_not.1 h2, h3, Or.inr ⟨h4, ht, _, Or.inl ⟨h5.1, h5.2, rfl⟩, hst⟩⟩
  · obtain ⟨ht, hst⟩ := instanceTail_next _ _ _ _ _ _ _ _ _ h
    exact ⟨h1, not_not.1 h2, h3, Or.inr ⟨h4, ht, _, Or.inr ⟨h5, h6, rfl⟩, hst⟩⟩

/-- What an iteration of the loop over the resources that ends without a
`return` has done. -/
theorem resourceBody_next (m : Methods) (rf mf rgf src trg tsub : String) (st : LoopState)
    (r : Resource) (st' : LoopState)
    (h : resourceBody m rf mf rgf src trg tsub st r = Flow.next st') :
    (¬ selected m rf mf r ∧ st' = st)
      ∨ (selected m rf mf r ∧ contains resourcesNotNeedingMovement r.Type_ = true
          ∧ st' = { resourceInstances := st.resourceInstances
                      ++ r.Instances.map (fun inst => summaryOf m r inst inst.Attributes.ID)
                    resourceGroup := st.resourceGroup })
      ∨ (selected m rf mf r ∧ contains resourcesNotNeedingMovement r.Type_ = false
          ∧ forRange (instanceBody m rgf src trg tsub r) r.Instances st = Flow.next st') := by
  unfold resourceBody at h
  unfold selected
  split_ifs at h with h1 h2 h3 h4
  · simp only [Flow.next.injEq] at h
    refine Or.inl ⟨?_, h.symm⟩
    rintro ⟨⟨ha, hb⟩, _⟩
    rcases h1 with h1 | h1
    · rw [ha] at h1; exact Bool.noConfusion h1
    · exact h1 hb
  · simp only [Flow.next.injEq] at h
    refine Or.inl ⟨?_, h.symm⟩
    rintro ⟨_, hb, _⟩
    rcases hb with hb | hb | hb
    · exact h2.1.1 hb
    · exact h2.1.2 hb
    · exact h2.2 hb
  · simp only [Flow.next.injEq] at h
    refine Or.inl ⟨?_, h.symm⟩
    rintro ⟨_, _, hb⟩
    rcases hb with hb | hb | hb
    · exact h3.1.1 hb
    · exact h3.1.2 hb
    · exact h3.2 hb
  · simp only [Flow.next.injEq] at h
    refine Or.inr (Or.inl ⟨?_, h4, ?_⟩)
    · exact selected_of_not m rf mf r h1 h2 h3
    · rw [← h, foldl_passThrough]
  · refine Or.inr (Or.inr ⟨selected_of_not m rf mf r h1 h2 h3, ?_, h⟩)
    cases hc : contains resourcesNotNeedingMovement r.Type_
    · rfl
    · exact absurd hc h4

theorem instanceTail_ret (m : Methods) (src trg tsub : String) (r : Resource)
    (acc : ResourcesInstanceSummary) (g : String) (inst : Instance) (res : FilterResult)
    (h : instanceTail m src trg tsub r acc g inst = Flow.ret res) :
    ∃ msg : String, res = ⟨[], "", some msg⟩ := by
  unfold instanceTail at h
  split_ifs at h
  simp only [Flow.ret.injEq] at h
  exact ⟨_, h.symm⟩

theorem instanceBody_ret (m : Methods) (rgf src trg tsub : String) (r : Resource)
    (st : LoopState) (inst : Instance) (res : FilterResult)
    (h : instanceBody m rgf src trg tsub r st inst = Flow.ret res) :
    ∃ msg : String, res = ⟨[], "", some msg⟩ := by
  unfold instanceBody at h
  split_ifs at h
  · simp only [Flow.ret.injEq] at h
    exact ⟨_, h.symm⟩
  · split at h
    · simp at h
    · simp only [Flow.ret.injEq] at h
      exact ⟨_, h.symm⟩
  · simp only [Flow.ret.injEq] at h
    exact ⟨_, h.symm⟩
  · exact instanceTail_ret _ _ _ _ _ _ _ _ _ h
  · simp only [Flow.ret.injEq] at h
    exact ⟨_, h.symm⟩
  · exact instanceTail_ret _ _ _ _ _ _ _ _ _ h

theorem resourceBody_ret (m : Methods) (rf mf rgf src trg tsub : String) (st : LoopState)
    (r : Resource) (res : FilterResult)
    (h : resourceBody m rf mf rgf src trg tsub st r = Flow.ret res) :
    ∃ msg : String, res = ⟨[], "", some msg⟩ := by
  unfold resourceBody at h
  split_ifs at h
  exact forRange_ret _ (fun res => ∃ msg : String, res = ⟨[], "", some msg⟩) _
    (fun inst _ st1 res1 h1 => instanceBody_ret _ _ _ _ _ _ _ _ _ h1) _ _ h

/-- A call of `Filter` that returns either ran both loops to their end, or
returned an error with the two other results empty. -/
theorem Filter_some (m : Methods) (tfstate : TerraformState)
    (rf mf rgf src trg tsub : String) (res : FilterResult)
    (h : Filter m tfstate rf mf rgf src trg tsub = some res) :
    (res.err = none
        ∧ forRange (resourceBody m rf mf rgf src trg tsub) tfstate.Resources
            { resourceInstances := [], resourceGroup := rgf }
          = Flow.next { resourceInstances := res.resourceInstances
                        resourceGroup := res.sourceResourceGroup })
      ∨ ∃ msg : String, res = ⟨[], "", some msg⟩ := by
  unfold Filter at h
  split at h
  · rename_i st hst
    simp only [Option.some.injEq] at h
    subst h
    exact Or.inl ⟨rfl, hst⟩
  · rename_i res1 hst
    simp only [Option.some.injEq] at h
    subst h
    exact Or.inr (forRange_ret _ (fun res => ∃ msg : String, res = ⟨[], "", some msg⟩) _
      (fun r _ st1 res1 h1 => resourceBody_ret _ _ _ _ _ _ _ _ _ _ h1) _ _ hst)
  · simp at h

/-- A successful call of `Filter` ran both loops to their end. -/
theorem Filter_success (m : Methods) (tfstate : TerraformState)
    (rf mf rgf src trg tsub : String) (res : FilterResult)
    (h : Filter m tfstate rf mf rgf src trg tsub = some res) (hok : res.err = none) :
    forRange (resourceBody m rf mf rgf src trg tsub) tfstate.Resources
        { resourceInstances := [], resourceGroup := rgf }
      = Flow.next { resourceInstances := res.resourceInstances
                    resourceGroup := res.sourceResourceGroup } := by
  rcases Filter_some m tfstate rf mf rgf src trg tsub res h with ⟨_, h1⟩ | ⟨msg, rfl⟩
  · exact h1
  · simp at hok

/-- On success, every instance of a selected resource whose type is not in
`resourcesNotNeedingMovement` went through the checks of the loop body. -/
theorem Filter_success_checks (m : Methods) (tfstate : TerraformState)
    (rf mf rgf src trg tsub : String) (res : FilterResult)
    (h : Filter m tfstate rf mf rgf src trg tsub = some res) (hok : res.err = none)
    (r : Resource) (hr : r ∈ tfstate.Resources) (hsel : selected m rf mf r)
    (hnn : contains resourcesNotNeedingMovement r.Type_ = false)
    (inst : Instance) (hinst : inst ∈ r.Instances) :
    m.SubscriptionID inst ≠ "" ∧ m.SubscriptionID inst = src
      ∧ ¬ (m.ResourceGroup inst = "" ∧ movementEligible r.Type_)
      ∧ (¬ (rgf ≠ "*" ∧ m.ResourceGroup inst ≠ rgf) →
          ¬ (m.SubscriptionID inst = tsub ∧ m.ResourceGroup inst = trg
              ∧ movementEligible r.Type_)) := by
  have hrun := Filter_success m tfstate rf mf rgf src trg tsub res h hok
  have hall := forRange_next_mem (resourceBody m rf mf rgf src trg tsub) (fun _ _ => True)
    (fun (r : Resource) (_ : LoopState) =>
      selected m rf mf r → contains resourcesNotNeedingMovement r.Type_ = false →
        ∀ inst ∈ r.Instances,
          m.SubscriptionID inst ≠ "" ∧ m.SubscriptionID inst = src
            ∧ ¬ (m.ResourceGroup inst = "" ∧ movementEligible r.Type_)
            ∧ (¬ (rgf ≠ "*" ∧ m.ResourceGroup inst ≠ rgf) →
                ¬ (m.SubscriptionID inst = tsub ∧ m.ResourceGroup inst = trg
                    ∧ movementEligible r.Type_)))
    (fun _ => trivial) (fun _ _ _ _ _ => trivial) (fun _ _ _ hq _ => hq) tfstate.Resources
    (by
      intro r _ st st' hb
      refine ⟨trivial, ?_⟩
      intro hsel hnn
      rcases resourceBody_next _ _ _ _ _ _ _ _ _ _ hb with ⟨hns, _⟩ | ⟨_, hn, _⟩ | ⟨_, _, hloop⟩
      · exact absurd hsel hns
      · rw [hnn] at hn; exact Bool.noConfusion hn
      · exact forRange_next_mem (instanceBody m rgf src trg tsub r) (fun _ _ => True)
          (fun (inst : Instance) (_ : LoopState) =>
            m.SubscriptionID inst ≠ "" ∧ m.SubscriptionID inst = src
              ∧ ¬ (m.ResourceGroup inst = "" ∧ movementEligible r.Type_)
              ∧ (¬ (rgf ≠ "*" ∧ m.ResourceGroup inst ≠ rgf) →
                  ¬ (m.SubscriptionID inst = tsub ∧ m.ResourceGroup inst = trg
                      ∧ movementEligible r.Type_)))
          (fun _ => trivial) (fun _ _ _ _ _ => trivial) (fun _ _ _ hq _ => hq) r.Instances
          (by
            intro inst _ st1 st2 hi
            obtain ⟨h1, h2, h3, h4⟩ := instanceBody_next _ _ _ _ _ _ _ _ _ hi
            refine ⟨trivial, h1, h2, h3, ?_⟩
            intro hpass
            rcases h4 with ⟨hskip, _⟩ | ⟨_, ht, _⟩
            · exact absurd hskip hpass
            · exact ht)
          _ _ hloop)
    _ _ hrun
  exact hall r hr hsel hnn inst hinst

theorem instanceBody_ne_panic (m : Methods) (rgf src trg tsub : String) (r : Resource)
    (st : LoopState) (inst : Instance)
    (hseg : m.SubscriptionID inst ≠ "" → 3 ≤ (strings.Split inst.Attributes.ID '/').length) :
    instanceBody m rgf src trg tsub r st inst ≠ Flow.panic := by
  unfold instanceBody instanceTail
  split_ifs with h1
  all_goals first
    | exact Flow.noConfusion
    | skip
  split
  · rename_i hget
    rw [List.get?_eq_none] at hget
    have := hseg h1
    omega
  · exact Flow.noConfusion

theorem resourceBody_ne_panic (m : Methods) (rf mf rgf src trg tsub : String) (st : LoopState)
    (r : Resource)
    (hseg : ∀ inst ∈ r.Instances,
      m.SubscriptionID inst ≠ "" → 3 ≤ (strings.Split inst.Attributes.ID '/').length) :
    resourceBody m rf mf rgf src trg tsub st r ≠ Flow.panic := by
  unfold resourceBody
  split_ifs
  all_goals first
    | exact Flow.noConfusion
    | skip
  exact forRange_ne_panic _ _
    (fun inst hi st1 => instanceBody_ne_panic _ _ _ _ _ _ _ _ (hseg inst hi)) _

/-- `Filter` does not panic when every instance with a subscription has an
identifier of at least three `/`-separated pieces. -/
theorem Filter_returns (m : Methods) (tfstate : TerraformState)
    (rf mf rgf src trg tsub : String)
    (hseg : ∀ r ∈ tfstate.Resources, ∀ inst ∈ r.Instances,
      m.SubscriptionID inst ≠ "" → 3 ≤ (strings.Split inst.Attributes.ID '/').length) :
    ∃ res, Filter m tfstate rf mf rgf src trg tsub = some res := by
  cases hF : Filter m tfstate rf mf rgf src trg tsub with
  | some res => exact ⟨res, rfl⟩
  | none =>
    exfalso
    unfold Filter at hF
    split at hF
    · simp at hF
    · simp at hF
    · rename_i hp
      exact forRange_ne_panic _ _
        (fun r hr st1 => resourceBody_ne_panic _ _ _ _ _ _ _ _ _ (hseg r hr)) _ hp

theorem instanceBody_next_sublist (m : Methods) (rgf src trg tsub : String) (r : Resource)
    (st : LoopState) (inst : Instance) (st' : LoopState)
    (h : instanceBody m rgf src trg tsub r st inst = Flow.next st') :
    ∀ s ∈ st.resourceInstances, s ∈ st'.resourceInstances := by
  obtain ⟨_, _, _, h4⟩ := instanceBody_next _ _ _ _ _ _ _ _ _ h
  rcases h4 with ⟨_, rfl⟩ | ⟨_, _, g, _, rfl⟩
  · exact fun s hs => hs
  · exact fun s hs => List.mem_append_left _ hs

theorem resourceBody_next_sublist (m : Methods) (rf mf rgf src trg tsub : String)
    (st : LoopState) (r : Resource) (st' : LoopState)
    (h : resourceBody m rf mf rgf src trg tsub st r = Flow.next st') :
    ∀ s ∈ st.resourceInstances, s ∈ st'.resourceInstances := by
  rcases resourceBody_next _ _ _ _ _ _ _ _ _ _ h with ⟨_, rfl⟩ | ⟨_, _, rfl⟩ | ⟨_, _, hloop⟩
  · exact fun s hs => hs
  · exact fun s hs => List.mem_append_left _ hs
  · exact forRange_next_rel (instanceBody m rgf src trg tsub r)
      (fun a b => ∀ s ∈ a.resourceInstances, s ∈ b.resourceInstances)
      (fun _ _ hs => hs) (fun _ _ _ hab hbc s hs => hbc s (hab s hs)) r.Instances
      (fun inst _ a b hi => instanceBody_next_sublist _ _ _ _ _ _ _ _ _ hi) _ _ hloop

/-- The pass-through summaries keep `FutureAzureID = AzureID`, and no other
summary has a type of `resourcesNotNeedingMovement`. -/
theorem resourceBody_next_passThrough (m : Methods) (rf mf rgf src trg tsub : String)
    (st : LoopState) (r : Resource) (st' : LoopState)
    (h : resourceBody m rf mf rgf src trg tsub st r = Flow.next st')
    (hinv : ∀ s ∈ st.resourceInstances,
      contains resourcesNotNeedingMovement s.Type_ = true → s.FutureAzureID = s.AzureID) :
    ∀ s ∈ st'.resourceInstances,
      contains resourcesNotNeedingMovement s.Type_ = true → s.FutureAzureID = s.AzureID := by
  rcases resourceBody_next _ _ _ _ _ _ _ _ _ _ h with ⟨_, rfl⟩ | ⟨_, _, rfl⟩ | ⟨_, hnn, hloop⟩
  · exact hinv
  · intro s hs hn
    rcases List.mem_append.1 hs with hs | hs
    · exact hinv s hs hn
    · obtain ⟨inst, _, rfl⟩ := List.mem_map.1 hs
      rfl
  · refine forRange_next_rel (instanceBody m rgf src trg tsub r)
      (fun a b =>
        (∀ s ∈ a.resourceInstances,
          contains resourcesNotNeedingMovement s.Type_ = true → s.FutureAzureID = s.AzureID) →
        ∀ s ∈ b.resourceInstances,
          contains resourcesNotNeedingMovement s.Type_ = true → s.FutureAzureID = s.AzureID)
      (fun _ hs => hs) (fun _ _ _ hab hbc ha => hbc (hab ha)) r.Instances ?_ _ _ hloop hinv
    intro inst _ a b hi ha
    obtain ⟨_, _, _, h4⟩ := instanceBody_next _ _ _ _ _ _ _ _ _ hi
    rcases h4 with ⟨_, rfl⟩ | ⟨_, _, g, _, rfl⟩
    · exact ha
    · intro s hs hn
      rcases List.mem_append.1 hs with hs | hs
      · exact ha s hs hn
      · rw [List.mem_singleton] at hs
        subst hs
        simp only [summaryOf] at hn
        rw [hnn] at hn
        exact Bool.noConfusion hn

theorem resourceBody_of_passThrough (m : Methods) (rf mf rgf src trg tsub : String)
    (st : LoopState) (r : Resource)
    (h : selected m rf mf r → contains resourcesNotNeedingMovement r.Type_ = true) :
    ∃ st', resourceBody m rf mf rgf src trg tsub st r = Flow.next st'
      ∧ st'.resourceGroup = st.resourceGroup := by
  unfold resourceBody
  split_ifs with h1 h2 h3 h4
  · exact ⟨_, rfl, rfl⟩
  · exact ⟨_, rfl, rfl⟩
  · exact ⟨_, rfl, rfl⟩
  · exact ⟨_, rfl, rfl⟩
  · exact absurd (h (selected_of_not m rf mf r h1 h2 h3)) h4

theorem forRange_of_passThrough (m : Methods) (rf mf rgf src trg tsub : String)
    (rs : List Resource)
    (h : ∀ r ∈ rs, selected m rf mf r → contains resourcesNotNeedingMovement r.Type_ = true) :
    ∀ st, ∃ st', forRange (resourceBody m rf mf rgf src trg tsub) rs st = Flow.next st'
      ∧ st'.resourceGroup = st.resourceGroup := by
  induction rs with
  | nil => exact fun st => ⟨st, rfl, rfl⟩
  | cons r rs ih =>
    intro st
    obtain ⟨st1, h1, hg1⟩ := resourceBody_of_passThrough m rf mf rgf src trg tsub st r
      (h r (List.mem_cons_self _ _))
    obtain ⟨st2, h2, hg2⟩ := ih (fun r' hr' => h r' (List.mem_cons_of_mem _ hr')) st1
    exact ⟨st2, by simp only [forRange, h1, h2], hg2.trans hg1⟩

/-! ### The resolution of the source resource group -/

/-- Once the running group is not the wildcard, an iteration keeps it; and
when the type is movement-eligible, an instance that is not skipped is in the
running group that the iteration leaves. -/
theorem instanceBody_next_group (m : Methods) (rgf src trg tsub : String) (r : Resource)
    (st : LoopState) (inst : Instance) (st' : LoopState)
    (hstar : rgf = "*" → m.ResourceGroup inst ≠ "*")
    (h : instanceBody m rgf src trg tsub r st inst = Flow.next st') :
    (st.resourceGroup ≠ "*" → st'.resourceGroup = st.resourceGroup)
      ∧ (movementEligible r.Type_ → (rgf = "*" ∨ m.ResourceGroup inst = rgf) →
          m.ResourceGroup inst = st'.resourceGroup ∧ st'.resourceGroup ≠ "*") := by
  obtain ⟨_, _, _, h4⟩ := instanceBody_next _ _ _ _ _ _ _ _ _ h
  rcases h4 with ⟨hskip, rfl⟩ | ⟨hpass, _, g, hg, rfl⟩
  · refine ⟨fun _ => rfl, ?_⟩
    rintro _ (hp | hp)
    · exact absurd hp hskip.1
    · exact absurd hp hskip.2
  · have hne : m.ResourceGroup inst ≠ "*" := by
      by_cases hw : rgf = "*"
      · exact hstar hw
      · intro he
        apply hpass
        refine ⟨hw, ?_⟩
        rw [he]
        exact fun e => hw e.symm
    rcases hg with ⟨h1, _, rfl⟩ | ⟨h1, h2, rfl⟩
    · exact ⟨fun hn => absurd h1 hn, fun _ _ => ⟨rfl, hne⟩⟩
    · refine ⟨fun _ => rfl, fun he _ => ?_⟩
      have hs : st.resourceGroup ≠ "*" := fun e => h1 ⟨e, he⟩
      have hq : st.resourceGroup = m.ResourceGroup inst := by
        by_contra hc
        exact h2 ⟨hc, he⟩
      exact ⟨hq.symm, hs⟩

theorem resourceBody_next_group (m : Methods) (rf mf rgf src trg tsub : String)
    (st : LoopState) (r : Resource) (st' : LoopState)
    (hstar : rgf = "*" → ∀ inst ∈ r.Instances, m.ResourceGroup inst ≠ "*")
    (h : resourceBody m rf mf rgf src trg tsub st r = Flow.next st') :
    (st.resourceGroup ≠ "*" → st'.resourceGroup = st.resourceGroup)
      ∧ (selected m rf mf r → contains resourcesNotNeedingMovement r.Type_ = false →
          movementEligible r.Type_ → ∀ inst ∈ r.Instances,
            (rgf = "*" ∨ m.ResourceGroup inst = rgf) →
              m.ResourceGroup inst = st'.resourceGroup ∧ st'.resourceGroup ≠ "*") := by
  rcases resourceBody_next _ _ _ _ _ _ _ _ _ _ h with ⟨hns, rfl⟩ | ⟨_, hn, rfl⟩ | ⟨_, _, hloop⟩
  · exact ⟨fun _ => rfl, fun hsel => absurd hsel hns⟩
  · refine ⟨fun _ => rfl, fun _ hnn => ?_⟩
    rw [hnn] at hn
    exact Bool.noConfusion hn
  · have hstep : ∀ inst ∈ r.Instances, ∀ a b : LoopState,
        instanceBody m rgf src trg tsub r a inst = Flow.next b →
          (a.resourceGroup ≠ "*" → b.resourceGroup = a.resourceGroup)
            ∧ (movementEligible r.Type_ → (rgf = "*" ∨ m.ResourceGroup inst = rgf) →
                m.ResourceGroup inst = b.resourceGroup ∧ b.resourceGroup ≠ "*") :=
      fun inst hi a b hab =>
        instanceBody_next_group m rgf src trg tsub r a inst b (fun hw => hstar hw inst hi) hab
    refine ⟨?_, fun _ _ he inst hi hp => ?_⟩
    · exact forRange_next_rel (instanceBody m rgf src trg tsub r)
        (fun a b => a.resourceGroup ≠ "*" → b.resourceGroup = a.resourceGroup)
        (fun _ _ => rfl) (fun a b c hab hbc ha => by rw [hbc (by rw [hab ha]; exact ha), hab ha])
        r.Instances (fun inst hi a b hab => (hstep inst hi a b hab).1) _ _ hloop
    · exact forRange_next_mem (instanceBody m rgf src trg tsub r)
        (fun a b => a.resourceGroup ≠ "*" → b.resourceGroup = a.resourceGroup)
        (fun (inst : Instance) (a : LoopState) =>
          movementEligible r.Type_ → (rgf = "*" ∨ m.ResourceGroup inst = rgf) →
            m.ResourceGroup inst = a.resourceGroup ∧ a.resourceGroup ≠ "*")
        (fun _ _ => rfl) (fun a b c hab hbc ha => by rw [hbc (by rw [hab ha]; exact ha), hab ha])
        (fun inst a b hq hab he hp => by
          obtain ⟨h1, h2⟩ := hq he hp
          rw [hab h2]
          exact ⟨h1, h2⟩)
        r.Instances hstep _ _ hloop inst hi he hp

/-- On success, with no instance in a group named `*` under the wildcard
filter, every instance of a movement-eligible type that was not skipped is in
the returned source resource group. -/
theorem Filter_success_group (m : Methods) (tfstate : TerraformState)
    (rf mf rgf src trg tsub : String) (res : FilterResult)
    (hstar : rgf = "*" → ∀ r ∈ tfstate.Resources, ∀ inst ∈ r.Instances,
      m.ResourceGroup inst ≠ "*")
    (h : Filter m tfstate rf mf rgf src trg tsub = some res) (hok : res.err = none)
    (r : Resource) (hr : r ∈ tfstate.Resources) (hsel : selected m rf mf r)
    (hnn : contains resourcesNotNeedingMovement r.Type_ = false)
    (he : movementEligible r.Type_) (inst : Instance) (hinst : inst ∈ r.Instances)
    (hp : rgf = "*" ∨ m.ResourceGroup inst = rgf) :
    m.ResourceGroup inst = res.sourceResourceGroup := by
  have hrun := Filter_success m tfstate rf mf rgf src trg tsub res h hok
  have hall := forRange_next_mem (resourceBody m rf mf rgf src trg tsub)
    (fun a b => a.resourceGroup ≠ "*" → b.resourceGroup = a.resourceGroup)
    (fun (r : Resource) (a : LoopState) =>
      selected m rf mf r → contains resourcesNotNeedingMovement r.Type_ = false →
        movementEligible r.Type_ → ∀ inst ∈ r.Instances,
          (rgf = "*" ∨ m.ResourceGroup inst = rgf) →
            m.ResourceGroup inst = a.resourceGroup ∧ a.resourceGroup ≠ "*")
    (fun _ _ => rfl) (fun a b c hab hbc ha => by rw [hbc (by rw [hab ha]; exact ha), hab ha])
    (fun r a b hq hab hsel hnn he inst hi hp => by
      obtain ⟨h1, h2⟩ := hq hsel hnn he inst hi hp
      rw [hab h2]
      exact ⟨h1, h2⟩)
    tfstate.Resources
    (fun r hr a b hab =>
      resourceBody_next_group m rf mf rgf src trg tsub a r b (fun hw => hstar hw r hr) hab)
    _ _ hrun
  exact (hall r hr hsel hnn he inst hinst hp).1

/-! ### The identifier after the move -/

theorem instanceBody_next_rewritten (m : Methods) (rgf src trg tsub : String) (r : Resource)
    (st : LoopState) (inst : Instance) (st' : LoopState)
    (hstar : rgf = "*" → m.ResourceGroup inst ≠ "*")
    (h : instanceBody m rgf src trg tsub r st inst = Flow.next st')
    (hinv : rewrittenWith rgf src trg tsub st) : rewrittenWith rgf src trg tsub st' := by
  obtain ⟨_, _, _, h4⟩ := instanceBody_next _ _ _ _ _ _ _ _ _ h
  rcases h4 with ⟨_, rfl⟩ | ⟨hpass, _, g, hg, rfl⟩
  · exact hinv
  · have hne : m.ResourceGroup inst ≠ "*" := by
      by_cases hw : rgf = "*"
      · exact hstar hw
      · intro he
        apply hpass
        refine ⟨hw, ?_⟩
        rw [he]
        exact fun e => hw e.symm
    rcases hg with ⟨h1, _, rfl⟩ | ⟨h1, h2, rfl⟩
    · refine ⟨fun _ => hne, ?_⟩
      intro s hs hn he
      rcases List.mem_append.1 hs with hs | hs
      · exact absurd h1 (hinv.2 s hs hn he).1
      · rw [List.mem_singleton] at hs
        subst hs
        exact ⟨hne, rfl⟩
    · refine ⟨hinv.1, ?_⟩
      intro s hs hn he
      rcases List.mem_append.1 hs with hs | hs
      · exact hinv.2 s hs hn he
      · rw [List.mem_singleton] at hs
        subst hs
        refine ⟨?_, rfl⟩
        by_cases hw : rgf = "*"
        · exact fun e => h1 ⟨e, he hw⟩
        · exact hinv.1 hw

theorem resourceBody_next_rewritten (m : Methods) (rf mf rgf src trg tsub : String)
    (st : LoopState) (r : Resource) (st' : LoopState)
    (hstar : rgf = "*" → ∀ inst ∈ r.Instances, m.ResourceGroup inst ≠ "*")
    (h : resourceBody m rf mf rgf src trg tsub st r = Flow.next st')
    (hinv : rewrittenWith rgf src trg tsub st) : rewrittenWith rgf src trg tsub st' := by
  rcases resourceBody_next _ _ _ _ _ _ _ _ _ _ h with ⟨_, rfl⟩ | ⟨_, hn, rfl⟩ | ⟨_, _, hloop⟩
  · exact hinv
  · refine ⟨hinv.1, ?_⟩
    intro s hs hnn he
    rcases List.mem_append.1 hs with hs | hs
    · exact hinv.2 s hs hnn he
    · obtain ⟨inst, _, rfl⟩ := List.mem_map.1 hs
      simp only [summaryOf] at hnn
      rw [hn] at hnn
      exact Bool.noConfusion hnn
  · exact forRange_next_rel (instanceBody m rgf src trg tsub r)
      (fun a b => rewrittenWith rgf src trg tsub a → rewrittenWith rgf src trg tsub b)
      (fun _ ha => ha) (fun _ _ _ hab hbc ha => hbc (hab ha)) r.Instances
      (fun inst hi a b hab ha =>
        instanceBody_next_rewritten m rgf src trg tsub r a inst b (fun hw => hstar hw inst hi)
          hab ha)
      _ _ hloop hinv

theorem Filter_success_rewritten (m : Methods) (tfstate : TerraformState)
    (rf mf rgf src trg tsub : String) (res : FilterResult)
    (hstar : rgf = "*" → ∀ r ∈ tfstate.Resources, ∀ inst ∈ r.Instances,
      m.ResourceGroup inst ≠ "*")
    (h : Filter m tfstate rf mf rgf src trg tsub = some res) (hok : res.err = none)
    (s : ResourceInstanceSummary) (hs : s ∈ res.resourceInstances)
    (hnn : contains resourcesNotNeedingMovement s.Type_ = false)
    (he : rgf = "*" → movementEligible s.Type_) :
    s.FutureAzureID = futureAzureId s.AzureID
      (resourceGroupIdOf src res.sourceResourceGroup) (resourceGroupIdOf tsub trg) := by
  have hrun := Filter_success m tfstate rf mf rgf src trg tsub res h hok
  have hfin := forRange_next_rel (resourceBody m rf mf rgf src trg tsub)
    (fun a b => rewrittenWith rgf src trg tsub a → rewrittenWith rgf src trg tsub b)
    (fun _ ha => ha) (fun _ _ _ hab hbc ha => hbc (hab ha)) tfstate.Resources
    (fun r hr a b hab ha =>
      resourceBody_next_rewritten m rf mf rgf src trg tsub a r b (fun hw => hstar hw r hr) hab ha)
    _ _ hrun ⟨fun hw => hw, fun s hs => by simp at hs⟩
  exact (hfin.2 s hs hnn he).2

/-! ## `Filter` (C1 to C6) -/

/-- Counterexample to C1: under the filter `*`, a cluster (a type of
`resourcesNotSupportedInAzure`, not of `resourcesNotNeedingMovement`) that
precedes the first movement-eligible instance is summarised while the running
group is still `*`. `Filter` succeeds with the source group `input-rg`, the
identifier of the cluster starts with the prefix of `input-rg`, and its
`FutureAzureID` is not the identifier with the prefix replaced. -/
theorem C1_counterexample :
    Filter specMethods clusterThenMachine "*" "*" "*" "S1" "output-rg" "S1"
        = some ⟨[aksSummary, vm1Summary], "input-rg", none⟩
      ∧ contains resourcesNotNeedingMovement aksSummary.Type_ = false
      ∧ aksSummary.AzureID = resourceGroupIdOf "S1" "input-rg"
          ++ "/providers/Microsoft.ContainerService/managedClusters/aks"
      ∧ aksSummary.FutureAzureID ≠ resourceGroupIdOf "S1" "output-rg"
          ++ "/providers/Microsoft.ContainerService/managedClusters/aks" := by
  decide

/-- C1 (amended): let `Filter` succeed with the source resource group `g`, on a
snapshot in which, when the resource-group filter is `*`, no instance has the
resource group `*`. Take a returned summary `s` whose type is not in
`resourcesNotNeedingMovement` and, when the resource-group filter is `*`, is
movement-eligible. With `P` the prefix of the source subscription and `g` and
`T` the prefix of the target subscription and group: if `s.AzureID` is
`P ++ rest` then `s.FutureAzureID` is `T ++ rest`, and if `s.AzureID` does not
start with `P` then `s.FutureAzureID` is `s.AzureID`. -/
theorem C1_future_identifier (m : Methods) (tfstate : TerraformState)
    (resourceFilter moduleFilter resourceGroupFilter sourceSubscriptionID targetResourceGroup
      targetSubscriptionID : String) (res : FilterResult)
    (hstar : resourceGroupFilter = "*" → ∀ r ∈ tfstate.Resources, ∀ inst ∈ r.Instances,
      m.ResourceGroup inst ≠ "*")
    (h : Filter m tfstate resourceFilter moduleFilter resourceGroupFilter sourceSubscriptionID
      targetResourceGroup targetSubscriptionID = some res)
    (hok : res.err = none)
    (s : ResourceInstanceSummary) (hs : s ∈ res.resourceInstances)
    (hnn : contains resourcesNotNeedingMovement s.Type_ = false)
    (he : resourceGroupFilter = "*" → movementEligible s.Type_) :
    (∀ rest : String,
        s.AzureID = resourceGroupIdOf sourceSubscriptionID res.sourceResourceGroup ++ rest →
        s.FutureAzureID = resourceGroupIdOf targetSubscriptionID targetResourceGroup ++ rest)
      ∧ ((¬ ∃ rest : String,
            s.AzureID = resourceGroupIdOf sourceSubscriptionID res.sourceResourceGroup ++ rest) →
          s.FutureAzureID = s.AzureID) := by
  have hf := Filter_success_rewritten m tfstate resourceFilter moduleFilter resourceGroupFilter
    sourceSubscriptionID targetResourceGroup targetSubscriptionID res hstar h hok s hs hnn he
  refine ⟨?_, ?_⟩
  · intro rest hrest
    rw [hf, hrest]
    exact futureAzureId_append _ _ _
  · intro hno
    rw [hf]
    apply futureAzureId_of_not_prefix
    cases hp : strings.HasPrefix s.AzureID
        (resourceGroupIdOf sourceSubscriptionID res.sourceResourceGroup)
    · rfl
    · exact absurd ((HasPrefix_iff _ _).1 hp) hno

/-- Witness of C1 (amended), scenario A: the machine of `input-rg` gets the
identifier it will have in `output-rg`. -/
theorem C1_future_identifier_witness :
    vm1Summary.FutureAzureID
      = resourceGroupIdOf "S1" "output-rg" ++ "/providers/Microsoft.Compute/virtualMachines/vm1" :=
  (C1_future_identifier specMethods scenarioA "*" "*" "*" "S1" "output-rg" "S1"
    ⟨[vm1Summary], "input-rg", none⟩ (by decide) (by decide) rfl vm1Summary (by decide)
    (by decide) (by decide)).1 "/providers/Microsoft.Compute/virtualMachines/vm1" (by decide)

/-- Counterexample to C2: under the filter `*`, a machine whose resource group
is `*` and then a machine in `input-rg`, both of a movement-eligible type.
`Filter` succeeds, emits a summary for both and returns the source group
`input-rg`, which is not the group of the first. -/
theorem C2_counterexample :
    Filter specMethods wildcardGroupThenMachine "*" "*" "*" "S1" "output-rg" "S1"
        = some ⟨[vm0Summary, vm1Summary], "input-rg", none⟩
      ∧ vm0 ∈ wildcardGroupThenMachine.Resources
      ∧ selected specMethods "*" "*" vm0
      ∧ movementEligible vm0.Type_
      ∧ contains resourcesNotNeedingMovement vm0.Type_ = false
      ∧ vm0Instance ∈ vm0.Instances
      ∧ vm0Summary = summaryOf specMethods vm0 vm0Instance vm0Summary.FutureAzureID
      ∧ specMethods.ResourceGroup vm0Instance ≠ "input-rg" := by
  decide

/-- C2 (amended): let `Filter` succeed on a snapshot in which, when the
resource-group filter is `*`, no instance has the resource group `*`. Then every
instance of a selected resource of a movement-eligible type not in
`resourcesNotNeedingMovement` that the resource-group filter does not skip (the
instances with a summary) has the returned source resource group as its
`ResourceGroup`. -/
theorem C2_single_source_group (m : Methods) (tfstate : TerraformState)
    (resourceFilter moduleFilter resourceGroupFilter sourceSubscriptionID targetResourceGroup
      targetSubscriptionID : String) (res : FilterResult)
    (hstar : resourceGroupFilter = "*" → ∀ r ∈ tfstate.Resources, ∀ inst ∈ r.Instances,
      m.ResourceGroup inst ≠ "*")
    (h : Filter m tfstate resourceFilter moduleFilter resourceGroupFilter sourceSubscriptionID
      targetResourceGroup targetSubscriptionID = some res)
    (hok : res.err = none)
    (r : Resource) (hr : r ∈ tfstate.Resources)
    (hsel : selected m resourceFilter moduleFilter r)
    (he : movementEligible r.Type_)
    (hnn : contains resourcesNotNeedingMovement r.Type_ = false)
    (inst : Instance) (hinst : inst ∈ r.Instances)
    (hpass : resourceGroupFilter = "*" ∨ m.ResourceGroup inst = resourceGroupFilter) :
    m.ResourceGroup inst = res.sourceResourceGroup := by
  apply Filter_success_group m tfstate resourceFilter moduleFilter resourceGroupFilter
    sourceSubscriptionID targetResourceGroup targetSubscriptionID res hstar h hok r hr hsel hnn he
    inst hinst hpass

/-- Witness of C2 (amended), scenario A. -/
theorem C2_single_source_group_witness :
    specMethods.ResourceGroup { Index := "", Attributes := { ID := vm1ID } } = "input-rg" :=
  C2_single_source_group specMethods scenarioA "*" "*" "*" "S1" "output-rg" "S1"
    ⟨[vm1Summary], "input-rg", none⟩ (by decide) (by decide) rfl vm1 (by decide) (by decide)
    (by decide) (by decide) { Index := "", Attributes := { ID := vm1ID } } (by decide)
    (Or.inl rfl)

/-- C3: if `Filter` succeeds, every instance of every selected resource whose
type is not in `resourcesNotNeedingMovement` has a non-empty `SubscriptionID`
equal to `sourceSubscriptionID`; the types of `resourcesNotSupportedInAzure`
and `resourcesBlockingMovement` and the instances that the resource-group
filter skips are included. -/
theorem C3_subscription_checked (m : Methods) (tfstate : TerraformState)
    (resourceFilter moduleFilter resourceGroupFilter sourceSubscriptionID targetResourceGroup
      targetSubscriptionID : String) (res : FilterResult)
    (h : Filter m tfstate resourceFilter moduleFilter resourceGroupFilter sourceSubscriptionID
      targetResourceGroup targetSubscriptionID = some res)
    (hok : res.err = none)
    (r : Resource) (hr : r ∈ tfstate.Resources)
    (hsel : selected m resourceFilter moduleFilter r)
    (hnn : contains resourcesNotNeedingMovement r.Type_ = false)
    (inst : Instance) (hinst : inst ∈ r.Instances) :
    m.SubscriptionID inst ≠ "" ∧ m.SubscriptionID inst = sourceSubscriptionID := by
  have hc := Filter_success_checks m tfstate resourceFilter moduleFilter resourceGroupFilter
    sourceSubscriptionID targetResourceGroup targetSubscriptionID res h hok r hr hsel hnn inst hinst
  exact ⟨hc.1, hc.2.1⟩

/-- Witness of C3: on `clusterThenMachine` the cluster, of a type that Azure
cannot move, has the source subscription. -/
theorem C3_subscription_checked_witness :
    specMethods.SubscriptionID
        { Index := ""
          Attributes := { ID := "/subscriptions/S1/resourceGroups/input-rg/providers/Microsoft.ContainerService/managedClusters/aks" } }
        ≠ ""
      ∧ specMethods.SubscriptionID
        { Index := ""
          Attributes := { ID := "/subscriptions/S1/resourceGroups/input-rg/providers/Microsoft.ContainerService/managedClusters/aks" } }
        = "S1" :=
  C3_subscription_checked specMethods clusterThenMachine "*" "*" "*" "S1" "output-rg" "S1"
    ⟨[aksSummary, vm1Summary], "input-rg", none⟩ (by decide) rfl aks (by decide) (by decide)
    (by decide) _ (by decide)

/-- C4: let an instance of a selected resource of a movement-eligible type not
in `resourcesNotNeedingMovement` pass the resource-group filter and have the
target subscription and the target resource group. Then `Filter` never
succeeds: whatever it returns is an error with the two other results empty.
And it does return an error when every instance with a subscription has an
identifier of at least three `/`-separated pieces, the condition under which
the message of the subscription mismatch can be built. -/
theorem C4_already_in_target (m : Methods) (tfstate : TerraformState)
    (resourceFilter moduleFilter resourceGroupFilter sourceSubscriptionID targetResourceGroup
      targetSubscriptionID : String)
    (r : Resource) (hr : r ∈ tfstate.Resources)
    (hsel : selected m resourceFilter moduleFilter r)
    (he : movementEligible r.Type_)
    (hnn : contains resourcesNotNeedingMovement r.Type_ = false)
    (inst : Instance) (hinst : inst ∈ r.Instances)
    (hpass : resourceGroupFilter = "*" ∨ m.ResourceGroup inst = resourceGroupFilter)
    (hsub : m.SubscriptionID inst = targetSubscriptionID)
    (hgroup : m.ResourceGroup inst = targetResourceGroup) :
    (∀ res, Filter m tfstate resourceFilter moduleFilter resourceGroupFilter sourceSubscriptionID
        targetResourceGroup targetSubscriptionID = some res →
        ∃ msg : String, res = ⟨[], "", some msg⟩)
      ∧ ((∀ r ∈ tfstate.Resources, ∀ inst ∈ r.Instances, m.SubscriptionID inst ≠ "" →
            3 ≤ (strings.Split inst.Attributes.ID '/').length) →
          ∃ msg : String, Filter m tfstate resourceFilter moduleFilter resourceGroupFilter
            sourceSubscriptionID targetResourceGroup targetSubscriptionID
              = some ⟨[], "", some msg⟩) := by
  have hfirst : ∀ res, Filter m tfstate resourceFilter moduleFilter resourceGroupFilter
      sourceSubscriptionID targetResourceGroup targetSubscriptionID = some res →
      ∃ msg : String, res = ⟨[], "", some msg⟩ := by
    intro res h
    rcases Filter_some m tfstate resourceFilter moduleFilter resourceGroupFilter
      sourceSubscriptionID targetResourceGroup targetSubscriptionID res h with ⟨hok, _⟩ | hmsg
    · exfalso
      have hc := Filter_success_checks m tfstate resourceFilter moduleFilter resourceGroupFilter
        sourceSubscriptionID targetResourceGroup targetSubscriptionID res h hok r hr hsel hnn
        inst hinst
      refine hc.2.2.2 ?_ ⟨hsub, hgroup, he⟩
      rintro ⟨hw, hne⟩
      rcases hpass with hp | hp
      · exact hw hp
      · exact hne hp
    · exact hmsg
  refine ⟨hfirst, fun hseg => ?_⟩
  obtain ⟨res, hres⟩ := Filter_returns m tfstate resourceFilter moduleFilter resourceGroupFilter
    sourceSubscriptionID targetResourceGroup targetSubscriptionID hseg
  obtain ⟨msg, hmsg⟩ := hfirst res hres
  exact ⟨msg, by rw [hres, hmsg]⟩

/-- Witness of C4, scenario F: a machine that is in `output-rg` already. -/
theorem C4_already_in_target_witness :
    ∃ msg : String, Filter specMethods scenarioF "*" "*" "*" "S1" "output-rg" "S1"
      = some ⟨[], "", some msg⟩ :=
  (C4_already_in_target specMethods scenarioF "*" "*" "*" "S1" "output-rg" "S1" vm3 (by decide)
    (by decide) (by decide) (by decide) vm3Instance (by decide) (Or.inl rfl) (by decide)
    (by decide)).2 (by decide)

/-- C5: `Filter` is all-or-nothing. Whenever it returns an error, the returned
summaries are empty and the returned source resource group is the empty
string. -/
theorem C5_all_or_nothing (m : Methods) (tfstate : TerraformState)
    (resourceFilter moduleFilter resourceGroupFilter sourceSubscriptionID targetResourceGroup
      targetSubscriptionID : String) (res : FilterResult)
    (h : Filter m tfstate resourceFilter moduleFilter resourceGroupFilter sourceSubscriptionID
      targetResourceGroup targetSubscriptionID = some res)
    (herr : res.err ≠ none) :
    res.resourceInstances = [] ∧ res.sourceResourceGroup = "" := by
  rcases Filter_some m tfstate resourceFilter moduleFilter resourceGroupFilter
    sourceSubscriptionID targetResourceGroup targetSubscriptionID res h with ⟨hok, _⟩ | ⟨msg, rfl⟩
  · exact absurd hok herr
  · exact ⟨rfl, rfl⟩

/-- Witness of C5, scenario C: the conflict is met at the second machine, after
the summary of the first was built. -/
theorem C5_all_or_nothing_witness :
    scenarioCResult.resourceInstances = [] ∧ scenarioCResult.sourceResourceGroup = "" :=
  C5_all_or_nothing specMethods scenarioC "*" "*" "*" "S1" "output-rg" "S1" scenarioCResult
    (by decide) (by decide)

/-- C6: if `Filter` succeeds, every instance of a selected resource whose type
is in `resourcesNotNeedingMovement` has its pass-through summary in the result,
and every returned summary of such a type has `FutureAzureID = AzureID`. And
when all selected resources are of such types, `Filter` succeeds, with the
resource-group filter as the returned source group. -/
theorem C6_pass_through (m : Methods) (tfstate : TerraformState)
    (resourceFilter moduleFilter resourceGroupFilter sourceSubscriptionID targetResourceGroup
      targetSubscriptionID : String) :
    (∀ res, Filter m tfstate resourceFilter moduleFilter resourceGroupFilter sourceSubscriptionID
        targetResourceGroup targetSubscriptionID = some res → res.err = none →
        (∀ r ∈ tfstate.Resources, selected m resourceFilter moduleFilter r →
          contains resourcesNotNeedingMovement r.Type_ = true →
          ∀ inst ∈ r.Instances,
            summaryOf m r inst inst.Attributes.ID ∈ res.resourceInstances)
        ∧ (∀ s ∈ res.resourceInstances,
            contains resourcesNotNeedingMovement s.Type_ = true →
              s.FutureAzureID = s.AzureID))
      ∧ ((∀ r ∈ tfstate.Resources, selected m resourceFilter moduleFilter r →
            contains resourcesNotNeedingMovement r.Type_ = true) →
          ∃ ris, Filter m tfstate resourceFilter moduleFilter resourceGroupFilter
            sourceSubscriptionID targetResourceGroup targetSubscriptionID
              = some ⟨ris, resourceGroupFilter, none⟩) := by
  refine ⟨fun res h hok => ⟨?_, ?_⟩, fun hall => ?_⟩
  · have hrun := Filter_success m tfstate resourceFilter moduleFilter resourceGroupFilter
      sourceSubscriptionID targetResourceGroup targetSubscriptionID res h hok
    exact forRange_next_mem
      (resourceBody m resourceFilter moduleFilter resourceGroupFilter sourceSubscriptionID
        targetResourceGroup targetSubscriptionID)
      (fun a b => ∀ s ∈ a.resourceInstances, s ∈ b.resourceInstances)
      (fun (r : Resource) (a : LoopState) =>
        selected m resourceFilter moduleFilter r →
          contains resourcesNotNeedingMovement r.Type_ = true →
          ∀ inst ∈ r.Instances, summaryOf m r inst inst.Attributes.ID ∈ a.resourceInstances)
      (fun _ _ hs => hs) (fun _ _ _ hab hbc s hs => hbc s (hab s hs))
      (fun r a b hq hab hsel hn inst hi => hab _ (hq hsel hn inst hi))
      tfstate.Resources
      (by
        intro r _ a b hab
        refine ⟨resourceBody_next_sublist _ _ _ _ _ _ _ _ _ _ hab, ?_⟩
        intro hsel hn inst hi
        rcases resourceBody_next _ _ _ _ _ _ _ _ _ _ hab with
          ⟨hns, _⟩ | ⟨_, _, rfl⟩ | ⟨_, hnn, _⟩
        · exact absurd hsel hns
        · exact List.mem_append_right _ (List.mem_map.2 ⟨inst, hi, rfl⟩)
        · rw [hn] at hnn
          exact Bool.noConfusion hnn)
      _ _ hrun
  · have hrun := Filter_success m tfstate resourceFilter moduleFilter resourceGroupFilter
      sourceSubscriptionID targetResourceGroup targetSubscriptionID res h hok
    exact forRange_next_rel
      (resourceBody m resourceFilter moduleFilter resourceGroupFilter sourceSubscriptionID
        targetResourceGroup targetSubscriptionID)
      (fun a b =>
        (∀ s ∈ a.resourceInstances,
          contains resourcesNotNeedingMovement s.Type_ = true → s.FutureAzureID = s.AzureID) →
        ∀ s ∈ b.resourceInstances,
          contains resourcesNotNeedingMovement s.Type_ = true → s.FutureAzureID = s.AzureID)
      (fun _ hs => hs) (fun _ _ _ hab hbc ha => hbc (hab ha)) tfstate.Resources
      (fun r _ a b hab ha => resourceBody_next_passThrough _ _ _ _ _ _ _ _ _ _ hab ha)
      _ _ hrun (fun s hs => by simp at hs)
  · obtain ⟨st', hst', hg⟩ := forRange_of_passThrough m resourceFilter moduleFilter
      resourceGroupFilter sourceSubscriptionID targetResourceGroup targetSubscriptionID
      tfstate.Resources hall { resourceInstances := [], resourceGroup := resourceGroupFilter }
    refine ⟨st'.resourceInstances, ?_⟩
    unfold Filter
    rw [hst']
    simp only at hg
    simp only [hg]

/-- Witness of C6, scenario D: a blob with a URL-shaped identifier, no
subscription and no resource group; `Filter` succeeds whatever the filter. -/
theorem C6_pass_through_witness :
    ∃ ris, Filter specMethods scenarioD "*" "*" "some-rg" "S1" "output-rg" "S1"
      = some ⟨ris, "some-rg", none⟩ :=
  (C6_pass_through specMethods scenarioD "*" "*" "some-rg" "S1" "output-rg" "S1").2 (by decide)

/-! ## The identifier rewrite and the summary views (C7 to C10) -/

/-- C7: the rewrite step of `Filter` (`HasPrefix`, then `Replace` with count 1)
is a total function; for a source prefix `/subscriptions/{sub}/resourceGroups/{group}`
and a target prefix, an identifier `src ++ rest` becomes `tgt ++ rest`, whatever
`rest` holds, and an identifier that does not start with `src` is returned
unchanged. -/
theorem C7_rewrite_step (ID sub group tsub tgroup : String) :
    (∀ rest : String, ID = resourceGroupIdOf sub group ++ rest →
        futureAzureId ID (resourceGroupIdOf sub group) (resourceGroupIdOf tsub tgroup)
          = resourceGroupIdOf tsub tgroup ++ rest)
    ∧ ((¬ ∃ rest : String, ID = resourceGroupIdOf sub group ++ rest) →
        futureAzureId ID (resourceGroupIdOf sub group) (resourceGroupIdOf tsub tgroup) = ID) := by
  refine ⟨?_, ?_⟩
  · rintro rest rfl
    exact futureAzureId_append _ _ _
  · intro h
    apply futureAzureId_of_not_prefix
    cases hp : strings.HasPrefix ID (resourceGroupIdOf sub group)
    · rfl
    · exact absurd ((HasPrefix_iff _ _).1 hp) h

/-- Witness of C7: the leading occurrence is replaced and a later occurrence of
the source prefix is left as it is; a URL-shaped identifier is not changed. -/
theorem C7_rewrite_step_witness :
    futureAzureId
        ("/subscriptions/S1/resourceGroups/a" ++ "/x/subscriptions/S1/resourceGroups/a/y")
        (resourceGroupIdOf "S1" "a") (resourceGroupIdOf "S2" "b")
      = resourceGroupIdOf "S2" "b" ++ "/x/subscriptions/S1/resourceGroups/a/y"
    ∧ futureAzureId "https://example.blob.core.windows.net/container"
        (resourceGroupIdOf "S1" "a") (resourceGroupIdOf "S2" "b")
      = "https://example.blob.core.windows.net/container" :=
  ⟨(C7_rewrite_step _ "S1" "a" "S2" "b").1 "/x/subscriptions/S1/resourceGroups/a/y" (by decide),
   (C7_rewrite_step "https://example.blob.core.windows.net/container" "S1" "a" "S2" "b").2
     (fun h => absurd ((HasPrefix_iff _ _).2 h) (by decide))⟩

/-- C8: the keys of `ris.ToCorrectInTFState()` are exactly the `TerraformID`s of
the summaries of `ris` whose type is in none of `resourcesNotSupportedInAzure`,
`resourcesBlockingMovement` and `resourcesNotNeedingMovement`. -/
theorem C8_ToCorrectInTFState_keys (ris : ResourcesInstanceSummary) (k : String) :
    k ∈ (ToCorrectInTFState ris).keys
      ↔ ∃ s ∈ ris, s.TerraformID = k
          ∧ contains resourcesNotSupportedInAzure s.Type_ = false
          ∧ contains resourcesBlockingMovement s.Type_ = false
          ∧ contains resourcesNotNeedingMovement s.Type_ = false := by
  unfold ToCorrectInTFState
  rw [mem_keys_foldl_ToCorrect]
  simp only [GoMap.keys, List.map_nil, List.not_mem_nil, false_or, toCorrect]
  constructor
  · rintro ⟨s, hs, h, rfl⟩
    exact ⟨s, hs, rfl, h⟩
  · rintro ⟨s, hs, rfl, h⟩
    exact ⟨s, hs, h, rfl⟩

/-- Counterexample to C9: a summary of the type
`azurerm_app_service_slot_virtual_network_swift_connection`, which is in
`resourcesOnlyMovedInTF` and in `resourcesBlockingMovement`, gets no key in
`ToCorrectInTFState()`. -/
theorem C9_counterexample :
    swiftSlotSummary ∈ [swiftSlotSummary]
      ∧ contains resourcesOnlyMovedInTF swiftSlotSummary.Type_ = true
      ∧ swiftSlotSummary.TerraformID ∉ (ToCorrectInTFState [swiftSlotSummary]).keys := by
  decide

/-- C9 (amended): a summary of `ris` whose type is in `resourcesOnlyMovedInTF`
and not in `resourcesBlockingMovement` has its `TerraformID` among the keys of
`ris.ToCorrectInTFState()`. -/
theorem C9_onlyMovedInTF_corrected (ris : ResourcesInstanceSummary)
    (s : ResourceInstanceSummary) (hs : s ∈ ris)
    (hmoved : contains resourcesOnlyMovedInTF s.Type_ = true)
    (hblocking : contains resourcesBlockingMovement s.Type_ = false) :
    s.TerraformID ∈ (ToCorrectInTFState ris).keys := by
  unfold ToCorrectInTFState
  rw [mem_keys_foldl_ToCorrect]
  have h := onlyMovedInTF_not_elsewhere s.Type_ hmoved
  exact Or.inr ⟨s, hs, ⟨h.1, hblocking, h.2⟩, rfl⟩

/-- Witness of C9 (amended), scenario E: an `azurerm_subnet` summary. -/
theorem C9_onlyMovedInTF_corrected_witness :
    subnetSummary ∈ [swiftSlotSummary, subnetSummary]
      ∧ contains resourcesOnlyMovedInTF subnetSummary.Type_ = true
      ∧ contains resourcesBlockingMovement subnetSummary.Type_ = false
      ∧ subnetSummary.TerraformID ∈ (ToCorrectInTFState [swiftSlotSummary, subnetSummary]).keys :=
  ⟨by decide, by decide, by decide,
   C9_onlyMovedInTF_corrected [swiftSlotSummary, subnetSummary] subnetSummary
     (by decide) (by decide) (by decide)⟩

/-- C10: an identifier `x` occurs in `ris.MovableOnAzure()` exactly when some
summary of `ris` has `AzureID = x` and a type in none of the four tables, and `x`
does not start with `https://`. -/
theorem C10_MovableOnAzure_mem (ris : ResourcesInstanceSummary) (x : String) :
    x ∈ MovableOnAzure ris
      ↔ ∃ s ∈ ris, s.AzureID = x
          ∧ (contains resourcesNotSupportedInAzure s.Type_ = false
            ∧ contains resourcesOnlyMovedInTF s.Type_ = false
            ∧ contains resourcesBlockingMovement s.Type_ = false
            ∧ contains resourcesNotNeedingMovement s.Type_ = false)
          ∧ strings.HasPrefix x "https://" = false := by
  unfold MovableOnAzure
  rw [mem_foldl_MovableOnAzure]
  simp only [List.not_mem_nil, false_or, movable]
  constructor
  · rintro ⟨s, hs, ⟨ht, hu⟩, rfl⟩
    exact ⟨s, hs, rfl, ht, hu⟩
  · rintro ⟨s, hs, rfl, ht, hu⟩
    exact ⟨s, hs, ⟨ht, hu⟩, rfl⟩

/-! ## More on the summary views and the rewrite (C11, C18, C19) -/

theorem nodup_MovableOnAzure_body (IDs : List String) (r : ResourceInstanceSummary)
    (h : IDs.Nodup) : (MovableOnAzure.body IDs r).Nodup := by
  unfold MovableOnAzure.body
  split_ifs with h1 h2
  · have hmem : r.AzureID ∉ IDs := (contains_eq_false_iff _ _).1 h2.1
    rw [List.nodup_append]
    refine ⟨h, List.nodup_singleton _, ?_⟩
    intro x hx hx'
    rw [List.mem_singleton] at hx'
    subst hx'
    exact hmem hx
  · exact h
  · exact h

theorem nodup_foldl_MovableOnAzure (ris : ResourcesInstanceSummary) (IDs : List String)
    (h : IDs.Nodup) : (ris.foldl MovableOnAzure.body IDs).Nodup := by
  induction ris generalizing IDs with
  | nil => exact h
  | cons r rest ih =>
    rw [List.foldl_cons]
    exact ih _ (nodup_MovableOnAzure_body IDs r h)

/-- C11: the list returned by `ris.MovableOnAzure()` holds no identifier
twice. -/
theorem C11_MovableOnAzure_nodup (ris : ResourcesInstanceSummary) :
    (MovableOnAzure ris).Nodup := by
  unfold MovableOnAzure
  exact nodup_foldl_MovableOnAzure ris [] List.nodup_nil

/-- C18: moving to the target group and back is a round trip on identifiers.
For a source prefix `A` and a target prefix `B`, both of the form
`/subscriptions/{..}/resourceGroups/{..}`, an identifier that starts with `A`
is given back by the rewrite from `A` to `B` followed by the rewrite from `B`
to `A`. -/
theorem C18_round_trip (ID s a t b : String)
    (h : ∃ rest : String, ID = resourceGroupIdOf s a ++ rest) :
    futureAzureId
        (futureAzureId ID (resourceGroupIdOf s a) (resourceGroupIdOf t b))
        (resourceGroupIdOf t b) (resourceGroupIdOf s a)
      = ID := by
  obtain ⟨rest, rfl⟩ := h
  rw [futureAzureId_append, futureAzureId_append]

/-- Witness of C18: the storage account of the acceptance test, moved from
`input-sa-rg` to `output-sa-rg` and back. -/
theorem C18_round_trip_witness :
    futureAzureId
        (futureAzureId
          "/subscriptions/S1/resourceGroups/input-sa-rg/providers/Microsoft.Storage/storageAccounts/sa"
          (resourceGroupIdOf "S1" "input-sa-rg") (resourceGroupIdOf "S1" "output-sa-rg"))
        (resourceGroupIdOf "S1" "output-sa-rg") (resourceGroupIdOf "S1" "input-sa-rg")
      = "/subscriptions/S1/resourceGroups/input-sa-rg/providers/Microsoft.Storage/storageAccounts/sa" :=
  C18_round_trip _ "S1" "input-sa-rg" "S1" "output-sa-rg"
    ⟨"/providers/Microsoft.Storage/storageAccounts/sa", by decide⟩

/-- C19: every identifier of `ris.MovableOnAzure()` is the `AzureID` of a
summary of `ris` whose `TerraformID` is a key of `ris.ToCorrectInTFState()`. -/
theorem C19_moved_is_corrected (ris : ResourcesInstanceSummary) (x : String)
    (hx : x ∈ MovableOnAzure ris) :
    ∃ s ∈ ris, s.AzureID = x ∧ s.TerraformID ∈ (ToCorrectInTFState ris).keys := by
  unfold MovableOnAzure at hx
  rw [mem_foldl_MovableOnAzure] at hx
  rcases hx with hx | ⟨s, hs, hm, hid⟩
  · simp at hx
  · refine ⟨s, hs, hid, ?_⟩
    unfold ToCorrectInTFState
    rw [mem_keys_foldl_ToCorrect]
    exact Or.inr ⟨s, hs, ⟨hm.1.1, hm.1.2.2.1, hm.1.2.2.2⟩, rfl⟩

/-- Witness of C19, scenario A: the machine is moved on Azure and corrected in
the state. -/
theorem C19_moved_is_corrected_witness :
    ∃ s ∈ [vm1Summary], s.AzureID = vm1ID
      ∧ s.TerraformID ∈ (ToCorrectInTFState [vm1Summary]).keys :=
  C19_moved_is_corrected [vm1Summary] vm1ID (by decide)

/-! ## The selection of the resources (C15, C16) -/

theorem forRange_filter {α : Type} (body body' : LoopState → α → Flow) (p : α → Bool)
    (xs : List α) (hskip : ∀ x ∈ xs, p x = false → ∀ st, body st x = Flow.next st)
    (hsame : ∀ x ∈ xs, p x = true → ∀ st, body st x = body' st x) :
    ∀ st, forRange body xs st = forRange body' (xs.filter p) st := by
  induction xs with
  | nil => intro st; rfl
  | cons x xs ih =>
    intro st
    have ih' := ih (fun y hy => hskip y (List.mem_cons_of_mem _ hy))
      (fun y hy => hsame y (List.mem_cons_of_mem _ hy))
    cases hp : p x
    · rw [List.filter_cons_of_neg (by simp [hp])]
      simp only [forRange, hskip x (List.mem_cons_self _ _) hp st]
      exact ih' st
    · rw [List.filter_cons_of_pos hp]
      simp only [forRange, hsame x (List.mem_cons_self _ _) hp st]
      cases body' st x with
      | next st1 => exact ih' st1
      | ret res => rfl
      | panic => rfl

theorem resourceBody_not_managedAzurerm (m : Methods) (rf mf rgf src trg tsub : String)
    (st : LoopState) (r : Resource) (h : isManagedAzurerm r = false) :
    resourceBody m rf mf rgf src trg tsub st r = Flow.next st := by
  unfold isManagedAzurerm at h
  unfold resourceBody
  rw [if_pos]
  rcases Bool.and_eq_false_iff.1 h with h1 | h1
  · exact Or.inl h1
  · exact Or.inr (of_decide_eq_false h1)

theorem resourceBody_other_resourceID (m : Methods) (rf mf rgf src trg tsub : String)
    (st : LoopState) (r : Resource) (h1 : rf ≠ "") (h2 : rf ≠ "*")
    (h : hasResourceID m rf r = false) :
    resourceBody m rf mf rgf src trg tsub st r = Flow.next st := by
  have hne : m.ResourceID r ≠ rf := of_decide_eq_false h
  unfold resourceBody
  split_ifs <;> first | rfl | (exfalso; simp_all)

theorem resourceBody_other_module (m : Methods) (rf mf rgf src trg tsub : String)
    (st : LoopState) (r : Resource) (h1 : mf ≠ "") (h2 : mf ≠ "*")
    (h : inModule mf r = false) :
    resourceBody m rf mf rgf src trg tsub st r = Flow.next st := by
  have hne : r.Module ≠ mf := of_decide_eq_false h
  unfold resourceBody
  split_ifs <;> first | rfl | (exfalso; simp_all)

theorem resourceBody_resourceFilter_empty (m : Methods) (mf rgf src trg tsub : String) :
    resourceBody m "" mf rgf src trg tsub = resourceBody m "*" mf rgf src trg tsub := by
  funext st r
  simp [resourceBody]

theorem resourceBody_moduleFilter_empty (m : Methods) (rf rgf src trg tsub : String) :
    resourceBody m rf "" rgf src trg tsub = resourceBody m rf "*" rgf src trg tsub := by
  funext st r
  simp [resourceBody]

theorem resourceBody_same_resourceID (m : Methods) (rf mf rgf src trg tsub : String)
    (st : LoopState) (r : Resource) (h : hasResourceID m rf r = true) :
    resourceBody m rf mf rgf src trg tsub st r = resourceBody m "*" mf rgf src trg tsub st r := by
  have he : m.ResourceID r = rf := of_decide_eq_true h
  simp [resourceBody, he]

theorem resourceBody_same_module (m : Methods) (rf mf rgf src trg tsub : String)
    (st : LoopState) (r : Resource) (h : inModule mf r = true) :
    resourceBody m rf mf rgf src trg tsub st r = resourceBody m rf "*" rgf src trg tsub st r := by
  have he : r.Module = mf := of_decide_eq_true h
  simp [resourceBody, he]

/-- C15: the resources whose provider is not azurerm or whose mode is not
`managed` are skipped entirely: `Filter` gives the same outcome (summaries,
source resource group, error or success, panic) on the snapshot with all such
resources removed. -/
theorem C15_other_providers_skipped (m : Methods) (tfstate : TerraformState)
    (resourceFilter moduleFilter resourceGroupFilter sourceSubscriptionID targetResourceGroup
      targetSubscriptionID : String) :
    Filter m tfstate resourceFilter moduleFilter resourceGroupFilter sourceSubscriptionID
        targetResourceGroup targetSubscriptionID
      = Filter m { Resources := tfstate.Resources.filter isManagedAzurerm } resourceFilter
          moduleFilter resourceGroupFilter sourceSubscriptionID targetResourceGroup
          targetSubscriptionID := by
  unfold Filter
  rw [forRange_filter _ _ isManagedAzurerm tfstate.Resources
    (fun r _ hp st => resourceBody_not_managedAzurerm m _ _ _ _ _ _ st r hp)
    (fun _ _ _ _ => rfl)]

/-- C16: the resource filter `""` gives the same result as `"*"`, and so does
the module filter. With any other resource filter the result is that of the
snapshot restricted to the resources whose handle `r.ID()` is the filter, with
the same filter or with `"*"`; and with any other module filter, that of the
snapshot restricted to the resources of that module. -/
theorem C16_resource_and_module_filter (m : Methods) (tfstate : TerraformState)
    (resourceFilter moduleFilter resourceGroupFilter sourceSubscriptionID targetResourceGroup
      targetSubscriptionID : String) :
    Filter m tfstate "" moduleFilter resourceGroupFilter sourceSubscriptionID
        targetResourceGroup targetSubscriptionID
      = Filter m tfstate "*" moduleFilter resourceGroupFilter sourceSubscriptionID
          targetResourceGroup targetSubscriptionID
    ∧ Filter m tfstate resourceFilter "" resourceGroupFilter sourceSubscriptionID
        targetResourceGroup targetSubscriptionID
      = Filter m tfstate resourceFilter "*" resourceGroupFilter sourceSubscriptionID
          targetResourceGroup targetSubscriptionID
    ∧ (resourceFilter ≠ "" → resourceFilter ≠ "*" →
        Filter m tfstate resourceFilter moduleFilter resourceGroupFilter sourceSubscriptionID
            targetResourceGroup targetSubscriptionID
          = Filter m { Resources := tfstate.Resources.filter (hasResourceID m resourceFilter) }
              resourceFilter moduleFilter resourceGroupFilter sourceSubscriptionID
              targetResourceGroup targetSubscriptionID
        ∧ Filter m tfstate resourceFilter moduleFilter resourceGroupFilter sourceSubscriptionID
            targetResourceGroup targetSubscriptionID
          = Filter m { Resources := tfstate.Resources.filter (hasResourceID m resourceFilter) }
              "*" moduleFilter resourceGroupFilter sourceSubscriptionID
              targetResourceGroup targetSubscriptionID)
    ∧ (moduleFilter ≠ "" → moduleFilter ≠ "*" →
        Filter m tfstate resourceFilter moduleFilter resourceGroupFilter sourceSubscriptionID
            targetResourceGroup targetSubscriptionID
          = Filter m { Resources := tfstate.Resources.filter (inModule moduleFilter) }
              resourceFilter moduleFilter resourceGroupFilter sourceSubscriptionID
              targetResourceGroup targetSubscriptionID
        ∧ Filter m tfstate resourceFilter moduleFilter resourceGroupFilter sourceSubscriptionID
            targetResourceGroup targetSubscriptionID
          = Filter m { Resources := tfstate.Resources.filter (inModule moduleFilter) }
              resourceFilter "*" resourceGroupFilter sourceSubscriptionID
              targetResourceGroup targetSubscriptionID) := by
  refine ⟨?_, ?_, fun h1 h2 => ⟨?_, ?_⟩, fun h1 h2 => ⟨?_, ?_⟩⟩
  · unfold Filter
    rw [resourceBody_resourceFilter_empty]
  · unfold Filter
    rw [resourceBody_moduleFilter_empty]
  · unfold Filter
    rw [forRange_filter _ _ (hasResourceID m resourceFilter) tfstate.Resources
      (fun r _ hp st => resourceBody_other_resourceID m _ _ _ _ _ _ st r h1 h2 hp)
      (fun _ _ _ _ => rfl)]
  · unfold Filter
    rw [forRange_filter _ _ (hasResourceID m resourceFilter) tfstate.Resources
      (fun r _ hp st => resourceBody_other_resourceID m _ _ _ _ _ _ st r h1 h2 hp)
      (fun r _ hp st => resourceBody_same_resourceID m _ _ _ _ _ _ st r hp)]
  · unfold Filter
    rw [forRange_filter _ _ (inModule moduleFilter) tfstate.Resources
      (fun r _ hp st => resourceBody_other_module m _ _ _ _ _ _ st r h1 h2 hp)
      (fun _ _ _ _ => rfl)]
  · unfold Filter
    rw [forRange_filter _ _ (inModule moduleFilter) tfstate.Resources
      (fun r _ hp st => resourceBody_other_module m _ _ _ _ _ _ st r h1 h2 hp)
      (fun r _ hp st => resourceBody_same_module m _ _ _ _ _ _ st r hp)]

/-- Witness of C16: on scenario C with the resource filter
`azurerm_virtual_machine.vm1`, only the machine `vm1` counts and there is no
conflict. -/
theorem C16_resource_and_module_filter_witness :
    Filter specMethods scenarioC "azurerm_virtual_machine.vm1" "*" "*" "S1" "output-rg" "S1"
      = Filter specMethods
          { Resources :=
              scenarioC.Resources.filter (hasResourceID specMethods "azurerm_virtual_machine.vm1") }
          "*" "*" "*" "S1" "output-rg" "S1" :=
  ((C16_resource_and_module_filter specMethods scenarioC "azurerm_virtual_machine.vm1" "*" "*"
    "S1" "output-rg" "S1").2.2.1 (by decide) (by decide)).2

/-! ## The errors (C12, C13) -/

theorem containsAt_append (substr pre post : List Char) :
    strings.containsAt substr (pre ++ (substr ++ post)) = true := by
  induction pre with
  | nil =>
    have hp : substr.isPrefixOf (substr ++ post) = true := by
      rw [List.isPrefixOf_iff_prefix]; exact List.prefix_append _ _
    cases h : substr ++ post with
    | nil => rw [h] at hp; simpa [strings.containsAt] using hp
    | cons c cs => rw [h] at hp; simp [strings.containsAt, hp]
  | cons c pre ih =>
    show (substr.isPrefixOf (c :: (pre ++ (substr ++ post)))
      || strings.containsAt substr (pre ++ (substr ++ post))) = true
    rw [ih, Bool.or_true]

theorem Contains_of_data (s substr : String) (pre post : List Char)
    (h : s.data = pre ++ (substr.data ++ post)) : strings.Contains s substr = true := by
  unfold strings.Contains
  rw [h]
  exact containsAt_append _ _ _

theorem forRange_ret_mem {α : Type} (body : LoopState → α → Flow)
    (P : α → FilterResult → Prop) (xs : List α)
    (hstep : ∀ x ∈ xs, ∀ st res, body st x = Flow.ret res → P x res) :
    ∀ st res, forRange body xs st = Flow.ret res → ∃ x ∈ xs, P x res :=
  forRange_ret body (fun res => ∃ x ∈ xs, P x res) xs
    (fun x hx st res h => ⟨x, hx, hstep x hx st res h⟩)

theorem instanceTail_ret_offence (m : Methods) (src trg tsub : String) (r : Resource)
    (acc : ResourcesInstanceSummary) (g : String) (inst : Instance) (res : FilterResult)
    (h : instanceTail m src trg tsub r acc g inst = Flow.ret res) :
    ∃ msg : String, res = ⟨[], "", some msg⟩ ∧ offence m src trg tsub r inst msg := by
  unfold instanceTail at h
  split_ifs at h with h1
  simp only [Flow.ret.injEq] at h
  refine ⟨_, h.symm, Or.inr (Or.inr (Or.inr (Or.inl ⟨h1.1, h1.2.1, h1.2.2, ?_⟩)))⟩
  exact Contains_of_data _ _ ("the selected resource ").data
    (" is already in the target resource group").data (by simp)

/-- An iteration of the loop over the instances that returns does so with an
error that the instance caused. -/
theorem instanceBody_ret_offence (m : Methods) (rgf src trg tsub : String) (r : Resource)
    (st : LoopState) (inst : Instance) (res : FilterResult)
    (h : instanceBody m rgf src trg tsub r st inst = Flow.ret res) :
    ∃ msg : String, res = ⟨[], "", some msg⟩ ∧ offence m src trg tsub r inst msg := by
  unfold instanceBody at h
  split_ifs at h with h1 h2 h3 h4 h5 h6
  · simp only [Flow.ret.injEq] at h
    refine ⟨_, h.symm, Or.inl ⟨h1, ?_⟩⟩
    exact Contains_of_data _ _ ("subscription ID is not found for ").data
      ((". Please file a PR on https://github.com/aristosvo/aztfmove and mention this ID: ").data
        ++ (m.InstanceID inst r).data) (by simp)
  · split at h
    · simp at h
    · simp only [Flow.ret.injEq] at h
      rename_i segment _
      refine ⟨_, h.symm, Or.inr (Or.inl ⟨h1, h2, ?_⟩)⟩
      exact Contains_of_data _ _ ("resource instance `").data
        (("` has a different subscription specified, unable to start moving. Resource instance subscription ID: ").data
          ++ (segment.data ++ ((", specified subscription ID: ").data ++ src.data))) (by simp)
  · simp only [Flow.ret.injEq] at h
    refine ⟨_, h.symm, Or.inr (Or.inr (Or.inl ⟨h3.1, h3.2, ?_⟩))⟩
    exact Contains_of_data _ _ ("resource group is not found for ").data
      ((". Please file a PR on https://github.com/aristosvo/aztfmove and mention this ID: ").data
        ++ (m.InstanceID inst r).data) (by simp)
  · exact instanceTail_ret_offence _ _ _ _ _ _ _ _ _ h
  · simp only [Flow.ret.injEq] at h
    exact ⟨_, h.symm, Or.inr (Or.inr (Or.inr (Or.inr ⟨h6.2, st.resourceGroup, h6.1, rfl⟩)))⟩
  · exact instanceTail_ret_offence _ _ _ _ _ _ _ _ _ h

theorem resourceBody_ret_offence (m : Methods) (rf mf rgf src trg tsub : String)
    (st : LoopState) (r : Resource) (res : FilterResult)
    (h : resourceBody m rf mf rgf src trg tsub st r = Flow.ret res) :
    selected m rf mf r ∧ contains resourcesNotNeedingMovement r.Type_ = false
      ∧ ∃ inst ∈ r.Instances, ∃ msg : String,
          res = ⟨[], "", some msg⟩ ∧ offence m src trg tsub r inst msg := by
  unfold resourceBody at h
  split_ifs at h with h1 h2 h3 h4
  refine ⟨selected_of_not m rf mf r h1 h2 h3, ?_, ?_⟩
  · cases hc : contains resourcesNotNeedingMovement r.Type_
    · rfl
    · exact absurd hc h4
  · exact forRange_ret_mem _
      (fun inst res => ∃ msg : String, res = ⟨[], "", some msg⟩ ∧ offence m src trg tsub r inst msg)
      _ (fun inst _ st1 res1 h1 => instanceBody_ret_offence _ _ _ _ _ _ _ _ _ h1) _ _ h

/-- Every error of `Filter` has a cause: an instance of a selected resource that
fails one of the five checks. -/
theorem Filter_error_offence (m : Methods) (tfstate : TerraformState)
    (rf mf rgf src trg tsub : String) (res : FilterResult) (msg : String)
    (h : Filter m tfstate rf mf rgf src trg tsub = some res) (herr : res.err = some msg) :
    ∃ r ∈ tfstate.Resources, selected m rf mf r
      ∧ contains resourcesNotNeedingMovement r.Type_ = false
      ∧ ∃ inst ∈ r.Instances, offence m src trg tsub r inst msg := by
  unfold Filter at h
  split at h
  · simp only [Option.some.injEq] at h
    subst h
    simp at herr
  · rename_i res1 hst
    simp only [Option.some.injEq] at h
    subst h
    obtain ⟨r, hr, hsel, hnn, inst, hinst, msg1, hres, hoff⟩ := forRange_ret_mem _
      (fun r res => selected m rf mf r ∧ contains resourcesNotNeedingMovement r.Type_ = false
        ∧ ∃ inst ∈ r.Instances, ∃ msg : String,
            res = ⟨[], "", some msg⟩ ∧ offence m src trg tsub r inst msg)
      _ (fun r _ st1 res1 h1 => resourceBody_ret_offence _ _ _ _ _ _ _ _ _ _ h1) _ _ hst
    rw [hres] at herr
    simp only [Option.some.injEq] at herr
    subst herr
    exact ⟨r, hr, hsel, hnn, inst, hinst, hoff⟩
  · simp at h

/-- Counterexample to C12, scenario C: `Filter` returns the error of line 165,
and its message contains the local handle of no instance of the snapshot. -/
theorem C12_counterexample :
    Filter specMethods scenarioC "*" "*" "*" "S1" "output-rg" "S1"
        = some ⟨[], "", some (conflictMessage "input-rg" "other-rg")⟩
      ∧ ∀ r ∈ scenarioC.Resources, ∀ inst ∈ r.Instances,
          strings.Contains (conflictMessage "input-rg" "other-rg")
            (specMethods.InstanceID inst r) = false := by
  decide

/-- C12 (amended): whenever `Filter` returns an error, an instance of a
selected resource caused it. When the cause is a missing subscription, another
subscription, a missing resource group or the instance being in the target
group already, the message contains the local handle `inst.ID(r)` of that
instance. When the cause is a second resource group, the message holds the
running group and the group of that instance, as line 165 writes it. -/
theorem C12_error_names_cause (m : Methods) (tfstate : TerraformState)
    (resourceFilter moduleFilter resourceGroupFilter sourceSubscriptionID targetResourceGroup
      targetSubscriptionID : String) (res : FilterResult) (msg : String)
    (h : Filter m tfstate resourceFilter moduleFilter resourceGroupFilter sourceSubscriptionID
      targetResourceGroup targetSubscriptionID = some res)
    (herr : res.err = some msg) :
    ∃ r ∈ tfstate.Resources, selected m resourceFilter moduleFilter r
      ∧ ∃ inst ∈ r.Instances,
          (m.SubscriptionID inst = "" ∧ strings.Contains msg (m.InstanceID inst r) = true)
          ∨ (m.SubscriptionID inst ≠ "" ∧ m.SubscriptionID inst ≠ sourceSubscriptionID
              ∧ strings.Contains msg (m.InstanceID inst r) = true)
          ∨ (m.ResourceGroup inst = "" ∧ movementEligible r.Type_
              ∧ strings.Contains msg (m.InstanceID inst r) = true)
          ∨ (m.SubscriptionID inst = targetSubscriptionID
              ∧ m.ResourceGroup inst = targetResourceGroup ∧ movementEligible r.Type_
              ∧ strings.Contains msg (m.InstanceID inst r) = true)
          ∨ (movementEligible r.Type_
              ∧ ∃ resourceGroup : String, resourceGroup ≠ m.ResourceGroup inst
                  ∧ msg = conflictMessage resourceGroup (m.ResourceGroup inst)) := by
  obtain ⟨r, hr, hsel, _, inst, hinst, hoff⟩ := Filter_error_offence m tfstate resourceFilter
    moduleFilter resourceGroupFilter sourceSubscriptionID targetResourceGroup
    targetSubscriptionID res msg h herr
  exact ⟨r, hr, hsel, inst, hinst, hoff⟩

/-- Witness of C12 (amended), scenario F with one machine: the message names the machine that is
in the target group already. -/
theorem C12_error_names_cause_witness :
    ∃ r ∈ machineInTarget.Resources, selected specMethods "*" "*" r
      ∧ ∃ inst ∈ r.Instances,
          (specMethods.SubscriptionID inst = ""
              ∧ strings.Contains
                  "the selected resource azurerm_virtual_machine.vm3 is already in the target resource group"
                  (specMethods.InstanceID inst r) = true)
          ∨ (specMethods.SubscriptionID inst ≠ "" ∧ specMethods.SubscriptionID inst ≠ "S1"
              ∧ strings.Contains
                  "the selected resource azurerm_virtual_machine.vm3 is already in the target resource group"
                  (specMethods.InstanceID inst r) = true)
          ∨ (specMethods.ResourceGroup inst = "" ∧ movementEligible r.Type_
              ∧ strings.Contains
                  "the selected resource azurerm_virtual_machine.vm3 is already in the target resource group"
                  (specMethods.InstanceID inst r) = true)
          ∨ (specMethods.SubscriptionID inst = "S1"
              ∧ specMethods.ResourceGroup inst = "output-rg" ∧ movementEligible r.Type_
              ∧ strings.Contains
                  "the selected resource azurerm_virtual_machine.vm3 is already in the target resource group"
                  (specMethods.InstanceID inst r) = true)
          ∨ (movementEligible r.Type_
              ∧ ∃ resourceGroup : String, resourceGroup ≠ specMethods.ResourceGroup inst
                  ∧ "the selected resource azurerm_virtual_machine.vm3 is already in the target resource group"
                      = conflictMessage resourceGroup (specMethods.ResourceGroup inst)) :=
  C12_error_names_cause specMethods machineInTarget "*" "*" "*" "S1" "output-rg" "S1"
    ⟨[], "", some "the selected resource azurerm_virtual_machine.vm3 is already in the target resource group"⟩
    _ (by decide) rfl

theorem forRange_next_of_all {α : Type} (body : LoopState → α → Flow) (xs : List α)
    (hstep : ∀ x ∈ xs, ∀ st, ∃ st', body st x = Flow.next st') :
    ∀ st, ∃ st', forRange body xs st = Flow.next st' := by
  induction xs with
  | nil => exact fun st => ⟨st, rfl⟩
  | cons x xs ih =>
    intro st
    obtain ⟨st1, h1⟩ := hstep x (List.mem_cons_self _ _) st
    obtain ⟨st2, h2⟩ := ih (fun y hy => hstep y (List.mem_cons_of_mem _ hy)) st1
    exact ⟨st2, by simp only [forRange, h1, h2]⟩

/-- An instance with the source subscription, of a type that is not
movement-eligible, never makes the loop body return: none of the checks on the
resource group applies to it. -/
theorem instanceBody_not_eligible (m : Methods) (rgf src trg tsub : String) (r : Resource)
    (st : LoopState) (inst : Instance) (he : ¬ movementEligible r.Type_)
    (h1 : m.SubscriptionID inst ≠ "") (h2 : m.SubscriptionID inst = src) :
    ∃ st', instanceBody m rgf src trg tsub r st inst = Flow.next st' := by
  subst h2
  unfold instanceBody instanceTail
  rw [if_neg h1, if_neg (fun hne => hne rfl), if_neg (fun hc => he hc.2)]
  split_ifs <;> first | exact ⟨_, rfl⟩ | (exfalso; tauto)

theorem resourceBody_not_eligible (m : Methods) (rf mf rgf src trg tsub : String)
    (st : LoopState) (r : Resource)
    (h : selected m rf mf r → contains resourcesNotNeedingMovement r.Type_ = false →
      ¬ movementEligible r.Type_
        ∧ ∀ inst ∈ r.Instances, m.SubscriptionID inst ≠ "" ∧ m.SubscriptionID inst = src) :
    ∃ st', resourceBody m rf mf rgf src trg tsub st r = Flow.next st' := by
  unfold resourceBody
  split_ifs with h1 h2 h3 h4
  · exact ⟨_, rfl⟩
  · exact ⟨_, rfl⟩
  · exact ⟨_, rfl⟩
  · exact ⟨_, rfl⟩
  · have hn : contains resourcesNotNeedingMovement r.Type_ = false := by
      cases hc : contains resourcesNotNeedingMovement r.Type_
      · rfl
      · exact absurd hc h4
    obtain ⟨he, hall⟩ := h (selected_of_not m rf mf r h1 h2 h3) hn
    exact forRange_next_of_all _ _
      (fun inst hi st1 =>
        instanceBody_not_eligible m rgf src trg tsub r st1 inst he (hall inst hi).1
          (hall inst hi).2) st

/-- C13: an instance of a selected resource of a movement-eligible type not in
`resourcesNotNeedingMovement` whose `ResourceGroup` is empty keeps `Filter`
from succeeding, whatever the resource-group filter: what `Filter` returns is
an error, and it does return when every instance with a subscription has an
identifier of at least three `/`-separated pieces. On a type of
`resourcesNotSupportedInAzure` or `resourcesBlockingMovement` an empty
`ResourceGroup` raises no error: when the selected resources outside
`resourcesNotNeedingMovement` are all of such types and their instances have
the source subscription, `Filter` succeeds whatever their resource groups. -/
theorem C13_missing_resource_group (m : Methods) (tfstate : TerraformState)
    (resourceFilter moduleFilter resourceGroupFilter sourceSubscriptionID targetResourceGroup
      targetSubscriptionID : String) :
    ((∃ r ∈ tfstate.Resources, selected m resourceFilter moduleFilter r
          ∧ movementEligible r.Type_ ∧ contains resourcesNotNeedingMovement r.Type_ = false
          ∧ ∃ inst ∈ r.Instances, m.ResourceGroup inst = "") →
        (∀ res, Filter m tfstate resourceFilter moduleFilter resourceGroupFilter
            sourceSubscriptionID targetResourceGroup targetSubscriptionID = some res →
            ∃ msg : String, res = ⟨[], "", some msg⟩)
        ∧ ((∀ r ∈ tfstate.Resources, ∀ inst ∈ r.Instances, m.SubscriptionID inst ≠ "" →
              3 ≤ (strings.Split inst.Attributes.ID '/').length) →
            ∃ msg : String, Filter m tfstate resourceFilter moduleFilter resourceGroupFilter
              sourceSubscriptionID targetResourceGroup targetSubscriptionID
                = some ⟨[], "", some msg⟩))
      ∧ ((∀ r ∈ tfstate.Resources, selected m resourceFilter moduleFilter r →
            contains resourcesNotNeedingMovement r.Type_ = false →
            ¬ movementEligible r.Type_
              ∧ ∀ inst ∈ r.Instances,
                  m.SubscriptionID inst ≠ "" ∧ m.SubscriptionID inst = sourceSubscriptionID) →
          ∃ ris g, Filter m tfstate resourceFilter moduleFilter resourceGroupFilter
            sourceSubscriptionID targetResourceGroup targetSubscriptionID
              = some ⟨ris, g, none⟩) := by
  refine ⟨?_, ?_⟩
  · rintro ⟨r, hr, hsel, he, hnn, inst, hinst, hempty⟩
    have hfirst : ∀ res, Filter m tfstate resourceFilter moduleFilter resourceGroupFilter
        sourceSubscriptionID targetResourceGroup targetSubscriptionID = some res →
        ∃ msg : String, res = ⟨[], "", some msg⟩ := by
      intro res h
      rcases Filter_some m tfstate resourceFilter moduleFilter resourceGroupFilter
        sourceSubscriptionID targetResourceGroup targetSubscriptionID res h with ⟨hok, _⟩ | hmsg
      · exfalso
        have hc := Filter_success_checks m tfstate resourceFilter moduleFilter
          resourceGroupFilter sourceSubscriptionID targetResourceGroup targetSubscriptionID res h
          hok r hr hsel hnn inst hinst
        exact hc.2.2.1 ⟨hempty, he⟩
      · exact hmsg
    refine ⟨hfirst, fun hseg => ?_⟩
    obtain ⟨res, hres⟩ := Filter_returns m tfstate resourceFilter moduleFilter
      resourceGroupFilter sourceSubscriptionID targetResourceGroup targetSubscriptionID hseg
    obtain ⟨msg, hmsg⟩ := hfirst res hres
    exact ⟨msg, by rw [hres, hmsg]⟩
  · intro hall
    obtain ⟨st', hst'⟩ := forRange_next_of_all
      (resourceBody m resourceFilter moduleFilter resourceGroupFilter sourceSubscriptionID
        targetResourceGroup targetSubscriptionID) tfstate.Resources
      (fun r hr st => resourceBody_not_eligible m _ _ _ _ _ _ st r (hall r hr))
      { resourceInstances := [], resourceGroup := resourceGroupFilter }
    refine ⟨st'.resourceInstances, st'.resourceGroup, ?_⟩
    unfold Filter
    rw [hst']

/-- Witness of C13: a machine without a resource group makes `Filter` return an
error, a diagnostic setting without a resource group does not. -/
theorem C13_missing_resource_group_witness :
    (∃ msg : String, Filter specMethods machineWithoutGroup "*" "*" "input-rg" "S1" "output-rg" "S1"
        = some ⟨[], "", some msg⟩)
      ∧ ∃ ris g, Filter specMethods settingWithoutGroup "*" "*" "*" "S1" "output-rg" "S1"
        = some ⟨ris, g, none⟩ :=
  ⟨((C13_missing_resource_group specMethods machineWithoutGroup "*" "*" "input-rg" "S1"
      "output-rg" "S1").1
      ⟨vm4, by decide, by decide, by decide, by decide, vm4Instance, by decide, by decide⟩).2
      (by decide),
   (C13_missing_resource_group specMethods settingWithoutGroup "*" "*" "*" "S1" "output-rg"
      "S1").2 (by decide)⟩

/-! ## The summaries of a call that succeeds (C14, C17, C20) -/

theorem forall₂_exists_of_mem {α β : Type} (R : α → β → Prop) (l₁ : List α) (l₂ : List β)
    (h : List.Forall₂ R l₁ l₂) : ∀ a ∈ l₁, ∃ b ∈ l₂, R a b := by
  induction h with
  | nil => intro a ha; simp at ha
  | cons hab _ ih =>
    intro a ha
    rcases List.mem_cons.1 ha with rfl | ha
    · exact ⟨_, List.mem_cons_self _ _, hab⟩
    · obtain ⟨b, hb, hr⟩ := ih a ha
      exact ⟨b, List.mem_cons_of_mem _ hb, hr⟩

theorem passesGroupFilter_iff (m : Methods) (rgf : String) (inst : Instance) :
    passesGroupFilter m rgf inst = true ↔ ¬ (rgf ≠ "*" ∧ m.ResourceGroup inst ≠ rgf) := by
  unfold passesGroupFilter
  rw [decide_eq_true_iff]
  tauto

/-- The summaries that the loop over the instances of `r` adds are those of the
instances that pass the resource-group filter, in their order. -/
theorem instances_emitted (m : Methods) (rgf src trg tsub : String) (r : Resource)
    (insts : List Instance) :
    ∀ st st', forRange (instanceBody m rgf src trg tsub r) insts st = Flow.next st' →
      ∃ news, st'.resourceInstances = st.resourceInstances ++ news
        ∧ List.Forall₂ (summarises m) news
            ((insts.filter (passesGroupFilter m rgf)).map (fun inst => (r, inst))) := by
  induction insts with
  | nil =>
    intro st st' h
    simp only [forRange, Flow.next.injEq] at h
    subst h
    exact ⟨[], by simp, by simp⟩
  | cons x xs ih =>
    intro st st' h
    cases hb : instanceBody m rgf src trg tsub r st x with
    | next st1 =>
      simp only [forRange, hb] at h
      obtain ⟨news, hnews, hrel⟩ := ih st1 st' h
      obtain ⟨_, _, _, h4⟩ := instanceBody_next _ _ _ _ _ _ _ _ _ hb
      rcases h4 with ⟨hskip, rfl⟩ | ⟨hpass, _, g, _, rfl⟩
      · have hp : passesGroupFilter m rgf x = false := by
          cases hc : passesGroupFilter m rgf x
          · rfl
          · exact absurd hskip ((passesGroupFilter_iff m rgf x).1 hc)
        refine ⟨news, hnews, ?_⟩
        rw [List.filter_cons_of_neg (by simp [hp])]
        exact hrel
      · have hp : passesGroupFilter m rgf x = true := (passesGroupFilter_iff m rgf x).2 hpass
        refine ⟨summaryOf m r x (futureAzureId x.Attributes.ID (resourceGroupIdOf src g)
          (resourceGroupIdOf tsub trg)) :: news, ?_, ?_⟩
        · rw [hnews]
          simp
        · rw [List.filter_cons_of_pos hp, List.map_cons]
          exact List.Forall₂.cons ⟨rfl, rfl, rfl⟩ hrel
    | ret res => simp [forRange, hb] at h
    | panic => simp [forRange, hb] at h

/-- The summaries of a run of the loop over the resources that reaches its end
are those of the instances of `emitted`, in their order. -/
theorem resources_emitted (m : Methods) (rf mf rgf src trg tsub : String)
    (rs : List Resource) :
    ∀ st st', forRange (resourceBody m rf mf rgf src trg tsub) rs st = Flow.next st' →
      ∃ news, st'.resourceInstances = st.resourceInstances ++ news
        ∧ List.Forall₂ (summarises m) news (emitted m rf mf rgf rs) := by
  induction rs with
  | nil =>
    intro st st' h
    simp only [forRange, Flow.next.injEq] at h
    subst h
    exact ⟨[], by simp, by simp [emitted]⟩
  | cons r rs ih =>
    intro st st' h
    cases hb : resourceBody m rf mf rgf src trg tsub st r with
    | next st1 =>
      simp only [forRange, hb] at h
      obtain ⟨news, hnews, hrel⟩ := ih st1 st' h
      rcases resourceBody_next _ _ _ _ _ _ _ _ _ _ hb with
        ⟨hns, rfl⟩ | ⟨hsel, hnn, rfl⟩ | ⟨hsel, hnn, hloop⟩
      · refine ⟨news, hnews, ?_⟩
        simp only [emitted, if_neg hns, List.nil_append]
        exact hrel
      · refine ⟨r.Instances.map (fun inst => summaryOf m r inst inst.Attributes.ID) ++ news,
          ?_, ?_⟩
        · rw [hnews, List.append_assoc]
        · simp only [emitted, if_pos hsel, emittedInstances, if_pos hnn]
          refine List.rel_append ?_ hrel
          rw [List.forall₂_map_left_iff, List.forall₂_map_right_iff, List.forall₂_same]
          exact fun inst _ => ⟨rfl, rfl, rfl⟩
      · obtain ⟨news1, hnews1, hrel1⟩ := instances_emitted m rgf src trg tsub r r.Instances _ _ hloop
        refine ⟨news1 ++ news, ?_, ?_⟩
        · rw [hnews, hnews1, List.append_assoc]
        · have hnn' : ¬ contains resourcesNotNeedingMovement r.Type_ = true := by
            rw [hnn]; exact Bool.noConfusion
          simp only [emitted, if_pos hsel, emittedInstances, if_neg hnn']
          exact List.rel_append hrel1 hrel
    | ret res => simp [forRange, hb] at h
    | panic => simp [forRange, hb] at h

theorem Filter_success_emitted (m : Methods) (tfstate : TerraformState)
    (rf mf rgf src trg tsub : String) (res : FilterResult)
    (h : Filter m tfstate rf mf rgf src trg tsub = some res) (hok : res.err = none) :
    List.Forall₂ (summarises m) res.resourceInstances (emitted m rf mf rgf tfstate.Resources) := by
  have hrun := Filter_success m tfstate rf mf rgf src trg tsub res h hok
  obtain ⟨news, hnews, hrel⟩ := resources_emitted m rf mf rgf src trg tsub tfstate.Resources _ _ hrun
  simp only [List.nil_append] at hnews
  rw [hnews]
  exact hrel

theorem emitted_sublist (m : Methods) (rf mf rgf : String) (rs : List Resource) :
    (emitted m rf mf rgf rs).Sublist (selectedInstances m rf mf rs) := by
  induction rs with
  | nil => simp [emitted, selectedInstances]
  | cons r rs ih =>
    simp only [emitted, selectedInstances]
    refine List.Sublist.append ?_ ih
    split_ifs with hsel
    · apply List.Sublist.map
      unfold emittedInstances
      split_ifs
      · exact List.Sublist.refl _
      · exact List.filter_sublist _
    · exact List.Sublist.refl _

theorem mem_emitted (m : Methods) (rf mf rgf : String) (rs : List Resource)
    (p : Resource × Instance) (hp : p ∈ emitted m rf mf rgf rs) :
    p.1 ∈ rs ∧ selected m rf mf p.1 ∧ p.2 ∈ emittedInstances m rgf p.1 := by
  induction rs with
  | nil => simp [emitted] at hp
  | cons r rs ih =>
    simp only [emitted, List.mem_append] at hp
    rcases hp with hp | hp
    · split_ifs at hp with hsel
      · obtain ⟨inst, hinst, rfl⟩ := List.mem_map.1 hp
        exact ⟨List.mem_cons_self _ _, hsel, hinst⟩
      · simp at hp
    · obtain ⟨h1, h2⟩ := ih hp
      exact ⟨List.mem_cons_of_mem _ h1, h2⟩

theorem Filter_success_keeps_group (m : Methods) (tfstate : TerraformState)
    (rf mf rgf src trg tsub : String) (res : FilterResult) (hg : rgf ≠ "*")
    (h : Filter m tfstate rf mf rgf src trg tsub = some res) (hok : res.err = none) :
    res.sourceResourceGroup = rgf := by
  have hrun := Filter_success m tfstate rf mf rgf src trg tsub res h hok
  exact forRange_next_rel (resourceBody m rf mf rgf src trg tsub)
    (fun a b => a.resourceGroup ≠ "*" → b.resourceGroup = a.resourceGroup)
    (fun _ _ => rfl) (fun a b c hab hbc ha => by rw [hbc (by rw [hab ha]; exact ha), hab ha])
    tfstate.Resources
    (fun r _ a b hab =>
      (resourceBody_next_group m rf mf rgf src trg tsub a r b (fun hw => absurd hw hg) hab).1)
    _ _ hrun hg

theorem Filter_success_passThrough (m : Methods) (tfstate : TerraformState)
    (rf mf rgf src trg tsub : String) (res : FilterResult)
    (h : Filter m tfstate rf mf rgf src trg tsub = some res) (hok : res.err = none) :
    ∀ s ∈ res.resourceInstances,
      contains resourcesNotNeedingMovement s.Type_ = true → s.FutureAzureID = s.AzureID := by
  have hrun := Filter_success m tfstate rf mf rgf src trg tsub res h hok
  exact forRange_next_rel (resourceBody m rf mf rgf src trg tsub)
    (fun a b =>
      (∀ s ∈ a.resourceInstances,
        contains resourcesNotNeedingMovement s.Type_ = true → s.FutureAzureID = s.AzureID) →
      ∀ s ∈ b.resourceInstances,
        contains resourcesNotNeedingMovement s.Type_ = true → s.FutureAzureID = s.AzureID)
    (fun _ hs => hs) (fun _ _ _ hab hbc ha => hbc (hab ha)) tfstate.Resources
    (fun r _ a b hab ha => resourceBody_next_passThrough _ _ _ _ _ _ _ _ _ _ hab ha)
    _ _ hrun (fun s hs => by simp at hs)

theorem instanceBody_next_unresolved (m : Methods) (rgf src trg tsub : String) (r : Resource)
    (st : LoopState) (inst : Instance) (st' : LoopState)
    (hnn : contains resourcesNotNeedingMovement r.Type_ = false)
    (h : instanceBody m rgf src trg tsub r st inst = Flow.next st')
    (hinv : unresolvedOrEligible rgf src trg tsub st) :
    unresolvedOrEligible rgf src trg tsub st' := by
  obtain ⟨_, _, _, h4⟩ := instanceBody_next _ _ _ _ _ _ _ _ _ h
  rcases h4 with ⟨_, rfl⟩ | ⟨_, _, g, hg, rfl⟩
  · exact hinv
  · rcases hinv with ⟨s, hs, he⟩ | ⟨hrg, hall⟩
    · exact Or.inl ⟨s, List.mem_append_left _ hs, he⟩
    · rcases hg with ⟨_, he, _⟩ | ⟨_, _, rfl⟩
      · exact Or.inl ⟨_, List.mem_append_right _ (List.mem_singleton.2 rfl), he, hnn⟩
      · refine Or.inr ⟨hrg, ?_⟩
        intro s hs hn
        rcases List.mem_append.1 hs with hs | hs
        · exact hall s hs hn
        · rw [List.mem_singleton] at hs
          subst hs
          simp only [summaryOf]
          rw [hrg]

theorem resourceBody_next_unresolved (m : Methods) (rf mf rgf src trg tsub : String)
    (st : LoopState) (r : Resource) (st' : LoopState)
    (h : resourceBody m rf mf rgf src trg tsub st r = Flow.next st')
    (hinv : unresolvedOrEligible rgf src trg tsub st) :
    unresolvedOrEligible rgf src trg tsub st' := by
  rcases resourceBody_next _ _ _ _ _ _ _ _ _ _ h with ⟨_, rfl⟩ | ⟨_, hn, rfl⟩ | ⟨_, hnn, hloop⟩
  · exact hinv
  · rcases hinv with ⟨s, hs, he⟩ | ⟨hrg, hall⟩
    · exact Or.inl ⟨s, List.mem_append_left _ hs, he⟩
    · refine Or.inr ⟨hrg, ?_⟩
      intro s hs hsn
      rcases List.mem_append.1 hs with hs | hs
      · exact hall s hs hsn
      · obtain ⟨inst, _, rfl⟩ := List.mem_map.1 hs
        simp only [summaryOf] at hsn
        rw [hn] at hsn
        exact Bool.noConfusion hsn
  · exact forRange_next_rel (instanceBody m rgf src trg tsub r)
      (fun a b => unresolvedOrEligible rgf src trg tsub a → unresolvedOrEligible rgf src trg tsub b)
      (fun _ ha => ha) (fun _ _ _ hab hbc ha => hbc (hab ha)) r.Instances
      (fun inst _ a b hab ha =>
        instanceBody_next_unresolved m rgf src trg tsub r a inst b hnn hab ha)
      _ _ hloop hinv

theorem Filter_success_unresolved (m : Methods) (tfstate : TerraformState)
    (rf mf rgf src trg tsub : String) (res : FilterResult)
    (h : Filter m tfstate rf mf rgf src trg tsub = some res) (hok : res.err = none) :
    unresolvedOrEligible rgf src trg tsub
      { resourceInstances := res.resourceInstances, resourceGroup := res.sourceResourceGroup } := by
  have hrun := Filter_success m tfstate rf mf rgf src trg tsub res h hok
  exact forRange_next_rel (resourceBody m rf mf rgf src trg tsub)
    (fun a b => unresolvedOrEligible rgf src trg tsub a → unresolvedOrEligible rgf src trg tsub b)
    (fun _ ha => ha) (fun _ _ _ hab hbc ha => hbc (hab ha)) tfstate.Resources
    (fun r _ a b hab ha => resourceBody_next_unresolved m rf mf rgf src trg tsub a r b hab ha)
    _ _ hrun (Or.inr ⟨rfl, fun s hs => by simp at hs⟩)

theorem instanceBody_other_group (m : Methods) (rgf src trg tsub : String) (r : Resource)
    (st : LoopState) (inst : Instance) (hg : rgf ≠ "*")
    (h1 : m.SubscriptionID inst ≠ "") (h2 : m.SubscriptionID inst = src)
    (h3 : ¬ (m.ResourceGroup inst = "" ∧ movementEligible r.Type_))
    (h4 : m.ResourceGroup inst ≠ rgf) :
    instanceBody m rgf src trg tsub r st inst = Flow.next st := by
  subst h2
  unfold instanceBody
  rw [if_neg h1, if_neg (fun hne => hne rfl), if_neg h3, if_pos ⟨hg, h4⟩]

/-- C14: with a resource-group filter `g` other than `*`, if `Filter` succeeds
then every returned summary whose type is not in `resourcesNotNeedingMovement`
is that of an instance of a selected resource whose `ResourceGroup` is `g`, and
the returned source resource group is `g`; an instance in another group that
has passed the checks of the subscription and of the missing group is skipped:
the iteration ends with the state unchanged. -/
theorem C14_group_filter (m : Methods) (tfstate : TerraformState)
    (resourceFilter moduleFilter resourceGroupFilter sourceSubscriptionID targetResourceGroup
      targetSubscriptionID : String) (res : FilterResult)
    (hg : resourceGroupFilter ≠ "*")
    (h : Filter m tfstate resourceFilter moduleFilter resourceGroupFilter sourceSubscriptionID
      targetResourceGroup targetSubscriptionID = some res)
    (hok : res.err = none) :
    (∀ s ∈ res.resourceInstances, contains resourcesNotNeedingMovement s.Type_ = false →
        ∃ r ∈ tfstate.Resources, selected m resourceFilter moduleFilter r
          ∧ ∃ inst ∈ r.Instances,
              summarises m s (r, inst) ∧ m.ResourceGroup inst = resourceGroupFilter)
      ∧ res.sourceResourceGroup = resourceGroupFilter
      ∧ (∀ (r : Resource) (st : LoopState) (inst : Instance),
          m.SubscriptionID inst ≠ "" → m.SubscriptionID inst = sourceSubscriptionID →
          ¬ (m.ResourceGroup inst = "" ∧ movementEligible r.Type_) →
          m.ResourceGroup inst ≠ resourceGroupFilter →
          instanceBody m resourceGroupFilter sourceSubscriptionID targetResourceGroup
            targetSubscriptionID r st inst = Flow.next st) := by
  refine ⟨?_, ?_, ?_⟩
  · intro s hs hnn
    have hrel := Filter_success_emitted m tfstate resourceFilter moduleFilter resourceGroupFilter
      sourceSubscriptionID targetResourceGroup targetSubscriptionID res h hok
    obtain ⟨p, hp, hsum⟩ := forall₂_exists_of_mem _ _ _ hrel s hs
    obtain ⟨hr, hsel, hinst⟩ := mem_emitted m resourceFilter moduleFilter resourceGroupFilter
      tfstate.Resources p hp
    have hnn' : ¬ contains resourcesNotNeedingMovement p.1.Type_ = true := by
      rw [← hsum.2.2, hnn]; exact Bool.noConfusion
    unfold emittedInstances at hinst
    rw [if_neg hnn'] at hinst
    obtain ⟨hmem, hpass⟩ := List.mem_filter.1 hinst
    refine ⟨p.1, hr, hsel, p.2, hmem, hsum, ?_⟩
    have hp' := (passesGroupFilter_iff m resourceGroupFilter p.2).1 hpass
    by_contra hne
    exact hp' ⟨hg, hne⟩
  · exact Filter_success_keeps_group m tfstate resourceFilter moduleFilter resourceGroupFilter
      sourceSubscriptionID targetResourceGroup targetSubscriptionID res hg h hok
  · intro r st inst h1 h2 h3 h4
    exact instanceBody_other_group m resourceGroupFilter sourceSubscriptionID targetResourceGroup
      targetSubscriptionID r st inst hg h1 h2 h3 h4

/-- Witness of C14, scenario C with the filter `input-rg`: the machine of
`other-rg` is skipped and the call succeeds with the summary of `vm1`. -/
theorem C14_group_filter_witness :
    (∀ s ∈ [vm1Summary], contains resourcesNotNeedingMovement s.Type_ = false →
        ∃ r ∈ scenarioC.Resources, selected specMethods "*" "*" r
          ∧ ∃ inst ∈ r.Instances,
              summarises specMethods s (r, inst) ∧ specMethods.ResourceGroup inst = "input-rg")
      ∧ (FilterResult.mk [vm1Summary] "input-rg" none).sourceResourceGroup = "input-rg" :=
  ⟨(C14_group_filter specMethods scenarioC "*" "*" "input-rg" "S1" "output-rg" "S1"
      ⟨[vm1Summary], "input-rg", none⟩ (by decide) (by decide) rfl).1,
   (C14_group_filter specMethods scenarioC "*" "*" "input-rg" "S1" "output-rg" "S1"
      ⟨[vm1Summary], "input-rg", none⟩ (by decide) (by decide) rfl).2.1⟩

/-- C17: if `Filter` succeeds, the returned summaries are in the order of the
snapshot: they are, one for one and in order, the summaries of a subsequence
of the instances of the selected resources flattened resource by resource and
instance by instance, each summary with the `id` attribute of its instance as
`AzureID`, `inst.ID(r)` as `TerraformID` and the type of the resource as
type. -/
theorem C17_traversal_order (m : Methods) (tfstate : TerraformState)
    (resourceFilter moduleFilter resourceGroupFilter sourceSubscriptionID targetResourceGroup
      targetSubscriptionID : String) (res : FilterResult)
    (h : Filter m tfstate resourceFilter moduleFilter resourceGroupFilter sourceSubscriptionID
      targetResourceGroup targetSubscriptionID = some res)
    (hok : res.err = none) :
    ∃ sub : List (Resource × Instance),
      sub.Sublist (selectedInstances m resourceFilter moduleFilter tfstate.Resources)
        ∧ List.Forall₂ (summarises m) res.resourceInstances sub :=
  ⟨emitted m resourceFilter moduleFilter resourceGroupFilter tfstate.Resources,
   emitted_sublist m resourceFilter moduleFilter resourceGroupFilter tfstate.Resources,
   Filter_success_emitted m tfstate resourceFilter moduleFilter resourceGroupFilter
     sourceSubscriptionID targetResourceGroup targetSubscriptionID res h hok⟩

/-- Witness of C17: the cluster and then the machine, as in the snapshot. -/
theorem C17_traversal_order_witness :
    ∃ sub : List (Resource × Instance),
      sub.Sublist (selectedInstances specMethods "*" "*" clusterThenMachine.Resources)
        ∧ List.Forall₂ (summarises specMethods) [aksSummary, vm1Summary] sub :=
  C17_traversal_order specMethods clusterThenMachine "*" "*" "*" "S1" "output-rg" "S1"
    ⟨[aksSummary, vm1Summary], "input-rg", none⟩ (by decide) rfl

/-- C20: if `Filter` succeeds and no returned summary is of a movement-eligible
type outside `resourcesNotNeedingMovement`, the returned source resource group
is the resource-group filter unchanged, the literal `*` under the wildcard
filter; and every returned summary, those of `resourcesNotSupportedInAzure` and
`resourcesBlockingMovement` types among them, has `FutureAzureID = AzureID`
unless its identifier starts with the prefix built from the source subscription
and that filter, `/subscriptions/{sourceSubscriptionID}/resourceGroups/*` under
the wildcard. -/
theorem C20_unresolved_group (m : Methods) (tfstate : TerraformState)
    (resourceFilter moduleFilter resourceGroupFilter sourceSubscriptionID targetResourceGroup
      targetSubscriptionID : String) (res : FilterResult)
    (h : Filter m tfstate resourceFilter moduleFilter resourceGroupFilter sourceSubscriptionID
      targetResourceGroup targetSubscriptionID = some res)
    (hok : res.err = none)
    (hnone : ∀ s ∈ res.resourceInstances,
      ¬ (movementEligible s.Type_ ∧ contains resourcesNotNeedingMovement s.Type_ = false)) :
    res.sourceResourceGroup = resourceGroupFilter
      ∧ ∀ s ∈ res.resourceInstances,
          (¬ ∃ rest : String,
              s.AzureID = resourceGroupIdOf sourceSubscriptionID resourceGroupFilter ++ rest) →
            s.FutureAzureID = s.AzureID := by
  rcases Filter_success_unresolved m tfstate resourceFilter moduleFilter resourceGroupFilter
    sourceSubscriptionID targetResourceGroup targetSubscriptionID res h hok with
    ⟨s, hs, he⟩ | ⟨hrg, hall⟩
  · exact absurd he (hnone s hs)
  · refine ⟨hrg, ?_⟩
    intro s hs hno
    cases hn : contains resourcesNotNeedingMovement s.Type_
    · rw [hall s hs hn]
      apply futureAzureId_of_not_prefix
      cases hp : strings.HasPrefix s.AzureID
          (resourceGroupIdOf sourceSubscriptionID resourceGroupFilter)
      · rfl
      · exact absurd ((HasPrefix_iff _ _).1 hp) hno
    · exact Filter_success_passThrough m tfstate resourceFilter moduleFilter resourceGroupFilter
        sourceSubscriptionID targetResourceGroup targetSubscriptionID res h hok s hs hn

/-- Witness of C20: with the cluster only, under the wildcard filter, the
returned group is `*` and the identifier of the cluster is kept. -/
theorem C20_unresolved_group_witness :
    (FilterResult.mk [aksSummary] "*" none).sourceResourceGroup = "*"
      ∧ ∀ s ∈ [aksSummary],
          (¬ ∃ rest : String, s.AzureID = resourceGroupIdOf "S1" "*" ++ rest) →
            s.FutureAzureID = s.AzureID :=
  C20_unresolved_group specMethods clusterOnly "*" "*" "*" "S1" "output-rg" "S1"
    ⟨[aksSummary], "*", none⟩ (by decide) rfl (by decide)

end Aztfmove
